import Mathlib

/-!
# Shark QP: SVM problems and working-set selection

A shallow embedding of `include/shark/Algorithms/QP/SvmProblems.h`.

Conventions of the embedding
* `double` values are rationals (exact arithmetic: no rounding, overflow or
  underflow); the sentinels `1e100` and `-1e100` are `10^100` and `-10^100`.
* a quotient whose divisor can be zero (`updateSMO`, `selectMGVariable`) is
  `divide`, with the values `inf`, `-inf` and `NaN` of a division by zero; the
  second order selection skips a zero divisor itself.  `updateSMO` returns
  `none` when it writes `-inf` or `NaN` into the state.
* `std::min` and `std::max` are `min` and `max` of the linear order `ℚ`.
* vectors and matrix rows are functions on indices; a loop
  `for (a = 0; a < n; a++) body` is `forLoop n body`, a left fold over
  `0, 1, ..., n-1`.
* reference parameters (`i`, `j`) are passed in and returned.
* the shrinking base class is not part of the file; its `shrinkVariable`,
  `unshrink` and `reshrink` are modelled from the specification, and a loop
  `for (int a = n - 1; a >= 0; --a) body` is `forLoopDown n body`, with `n`
  inside the range of `int`.
-/

namespace Shark

/-- A counted loop `for (a = 0; a < n; a++) s = body a s`. -/
def forLoop {σ : Type} (n : Nat) (body : Nat → σ → σ) (s : σ) : σ :=
  (List.range n).foldl (fun st a => body a st) s

/-- The sentinel `1e100` used by the selection criteria. -/
def sentinel : ℚ := 10 ^ 100

/-- The value of a quotient of two `double`s whose divisor may be zero: a
number, or one of `inf`, `-inf` and `NaN`. -/
inductive DoubleQuotient where
  | num (q : ℚ)
  | posInf
  | negInf
  | nan

/-- The quotient `x / y` of two `double`s: for `y = 0` (taken as `+0.0`, the
result of subtracting equal numbers) it is `inf`, `-inf` or `NaN` by the sign
of `x`. -/
def divide (x y : ℚ) : DoubleQuotient :=
  if y = 0 then
    if x > 0 then DoubleQuotient.posInf
    else if x < 0 then DoubleQuotient.negInf
    else DoubleQuotient.nan
  else DoubleQuotient.num (x / y)

/-- The comparison `m >= b` with a number `b`: false for `NaN`. -/
def DoubleQuotient.ge (m : DoubleQuotient) (b : ℚ) : Bool :=
  match m with
  | DoubleQuotient.num q => decide (q ≥ b)
  | DoubleQuotient.posInf => true
  | DoubleQuotient.negInf => false
  | DoubleQuotient.nan => false

/-- The part of the box constrained problem (`m_problem`) that the file uses:
`quadratic i a` is entry `a` of `quadratic().row(i, 0, n)`, and `maxCacheSize`
is `quadratic().getMaxCacheSize()`. -/
structure Problem where
  dimensions : Nat
  quadratic : Nat → Nat → ℚ
  maxCacheSize : Nat
  linear : Nat → ℚ
  boxMin : Nat → ℚ
  boxMax : Nat → ℚ
  alpha : Nat → ℚ
  permutation : Nat → Nat

/-- Modelled from the spec: `m_problem.diagonal` is declared outside this file;
the data model says `diagonal(a)` is the quadratic matrix diagonal entry. -/
def Problem.diagonal (p : Problem) (i : Nat) : ℚ := p.quadratic i i

/-- The class `SvmProblem`: the wrapped problem, the maintained gradient and
the number of active variables. -/
structure SvmProblem where
  m_problem : Problem
  m_gradient : Nat → ℚ
  m_active : Nat

namespace SvmProblem

def dimensions (s : SvmProblem) : Nat := s.m_problem.dimensions
def active (s : SvmProblem) : Nat := s.m_active
def boxMin (s : SvmProblem) (i : Nat) : ℚ := s.m_problem.boxMin i
def boxMax (s : SvmProblem) (i : Nat) : ℚ := s.m_problem.boxMax i
def quadratic (s : SvmProblem) (i a : Nat) : ℚ := s.m_problem.quadratic i a
def linear (s : SvmProblem) (i : Nat) : ℚ := s.m_problem.linear i
def alpha (s : SvmProblem) (i : Nat) : ℚ := s.m_problem.alpha i
def diagonal (s : SvmProblem) (i : Nat) : ℚ := s.m_problem.diagonal i
def gradient (s : SvmProblem) (i : Nat) : ℚ := s.m_gradient i

/-- Write `v` to `m_problem.alpha(i)`. -/
def setAlpha (s : SvmProblem) (i : Nat) (v : ℚ) : SvmProblem :=
  { s with m_problem := { s.m_problem with alpha := Function.update s.m_problem.alpha i v } }

/-- The constructor `SvmProblem(Problem& problem)`: the gradient starts as the
linear part, and every row with a nonzero alpha is subtracted. -/
def construct (problem : Problem) : SvmProblem :=
  { m_problem := problem
    m_gradient :=
      forLoop problem.dimensions
        (fun i g =>
          let v := problem.alpha i
          if v ≠ 0 then
            forLoop problem.dimensions
              (fun a g => Function.update g a (g a - problem.quadratic i a * v)) g
          else g)
        problem.linear
    m_active := problem.dimensions }

/-- The gradient update loop shared by `updateSMO` and `modifyStep`:
`for a < active: m_gradient(a) -= delta a`. -/
def updateGradient (s : SvmProblem) (delta : Nat → ℚ) : SvmProblem :=
  { s with m_gradient :=
      forLoop s.active (fun a g => Function.update g a (g a - delta a)) s.m_gradient }

/-- The method `updateSMO(i, j)`. The step `mu` is a quotient of `double`s: with
a zero denominator it is `inf`, `-inf` or `NaN`. The step `inf` passes the
comparison and is replaced by a distance to a bound; the steps `-inf` and `NaN`
fail it and are added to alpha and to the gradient, which then hold values that
are no numbers: this outcome is `none`. -/
def updateSMO (s : SvmProblem) (i j : Nat) : Option SvmProblem :=
  let ai := s.alpha i
  let aj := s.alpha j
  let Ui := s.boxMax i
  let Lj := s.boxMin j
  let numerator := s.gradient i - s.gradient j
  let denominator := s.diagonal i + s.diagonal j - 2 * s.quadratic i j
  let mu := divide numerator denominator
  if mu.ge (min (Ui - ai) (aj - Lj)) then
    if Ui - ai > aj - Lj then
      let mu := aj - Lj
      let s1 := s.setAlpha i (s.alpha i + mu)
      let s2 := s1.setAlpha j Lj
      some (s2.updateGradient (fun a => mu * (s.quadratic i a - s.quadratic j a)))
    else if Ui - ai < aj - Lj then
      let mu := Ui - ai
      let s1 := s.setAlpha i Ui
      let s2 := s1.setAlpha j (s1.alpha j - mu)
      some (s2.updateGradient (fun a => mu * (s.quadratic i a - s.quadratic j a)))
    else
      let mu := Ui - ai
      let s1 := s.setAlpha i Ui
      let s2 := s1.setAlpha j Lj
      some (s2.updateGradient (fun a => mu * (s.quadratic i a - s.quadratic j a)))
  else
    match mu with
    | DoubleQuotient.num mu =>
      let s1 := s.setAlpha i (s.alpha i + mu)
      let s2 := s1.setAlpha j (s1.alpha j - mu)
      some (s2.updateGradient (fun a => mu * (s.quadratic i a - s.quadratic j a)))
    | _ => none

/-- Modelled from the spec: `boundedUpdate` is declared outside this file; the
contract of `modifyStep` says it applies the (already feasible) step to the
value, and its bound arguments keep the result inside `[lower, upper]`. -/
def boundedUpdate (value step lower upper : ℚ) : ℚ :=
  let v := value + step
  if v < lower then lower else if v > upper then upper else v

/-- The method `modifyStep(i, j, diff)`. A failed `SIZE_CHECK` or `RANGE_CHECK`
(an exception in the checked build) is `none`. -/
def modifyStep (s : SvmProblem) (i j : Nat) (diff : ℚ) : Option SvmProblem :=
  let tol := (1 / 10 ^ 14) * (s.boxMax i - s.boxMin i)
  if ¬ (i < s.dimensions) then none
  else if ¬ (s.alpha i + diff ≥ s.boxMin i - tol) then none
  else if ¬ (s.alpha i + diff ≤ s.boxMax i + tol) then none
  else if diff = 0 then some s
  else if ¬ (s.alpha j - diff ≥ s.boxMin j - tol) then none
  else if ¬ (s.alpha j - diff ≤ s.boxMax j + tol) then none
  else
    let s1 := s.setAlpha i (boundedUpdate (s.alpha i) diff (s.boxMin i) (s.boxMax i))
    let s2 := s1.setAlpha j (boundedUpdate (s1.alpha j) (-diff) (s.boxMin j) (s.boxMax j))
    some (s2.updateGradient (fun a => diff * s.quadratic i a - diff * s.quadratic j a))

/-- The method `functionValue()`: `0.5 * inner_prod(m_gradient + linear, alpha)`,
the vectors having `dimensions()` entries. -/
def functionValue (s : SvmProblem) : ℚ :=
  (1 / 2) * ∑ a in Finset.range s.dimensions, (s.gradient a + s.linear a) * s.alpha a

end SvmProblem

/-! ## Working set selection -/

/-- What a selection criterion hands back: the returned value and the
reference parameters `i` and `j`. -/
structure Selection where
  value : ℚ
  i : Nat
  j : Nat

/-- The local variables of the loop of `MVPSelectionCriterion::operator()`. -/
structure MVPLoop where
  largestUp : ℚ
  smallestDown : ℚ
  i : Nat
  j : Nat

/-- One round of the loop of `MVPSelectionCriterion::operator()`. -/
def mvpBody (p : SvmProblem) (a : Nat) (st : MVPLoop) : MVPLoop :=
  let aa := p.alpha a
  let ga := p.gradient a
  let st1 :=
    if aa < p.boxMax a then
      if ga > st.largestUp then { st with largestUp := ga, i := a } else st
    else st
  if aa > p.boxMin a then
    if ga < st1.smallestDown then { st1 with smallestDown := ga, j := a } else st1
  else st1

/-- The call `MVPSelectionCriterion::operator()(problem, i, j)`; `i` and `j` come
in with the values the caller left in them. -/
def MVPSelectionCriterion (p : SvmProblem) (i j : Nat) : Selection :=
  let st := forLoop p.active (mvpBody p)
    { largestUp := -sentinel, smallestDown := sentinel, i := i, j := j }
  { value := st.largestUp - st.smallestDown, i := st.i, j := st.j }

/-- One round of the first loop of `LibSVMSelectionCriterion::operator()`,
on the pair `(largestUp, i)`. -/
def libsvmFirstBody (p : SvmProblem) (a : Nat) (st : ℚ × Nat) : ℚ × Nat :=
  let aa := p.alpha a
  let ga := p.gradient a
  if aa < p.boxMax a then
    if ga > st.1 then (ga, a) else st
  else st

/-- The local variables of the second loop of `LibSVMSelectionCriterion::operator()`. -/
structure LibSVMLoop where
  smallestDown : ℚ
  best : ℚ
  j : Nat

/-- One round of the second loop of `LibSVMSelectionCriterion::operator()`, with
`i` and `largestUp` from the first loop. -/
def libsvmSecondBody (p : SvmProblem) (i : Nat) (largestUp : ℚ) (a : Nat) (st : LibSVMLoop) :
    LibSVMLoop :=
  let aa := p.alpha a
  let ga := p.gradient a
  if aa > p.boxMin a then
    let st1 := { st with smallestDown := min st.smallestDown ga }
    let grad_diff := largestUp - ga
    if grad_diff > 0 then
      let quad_coef := p.diagonal i + p.diagonal a - 2 * p.quadratic i a
      if quad_coef = 0 then st1
      else
        let obj_diff := (grad_diff * grad_diff) / quad_coef
        if obj_diff > st1.best then { st1 with best := obj_diff, j := a } else st1
    else st1
  else st

/-- The call `LibSVMSelectionCriterion::operator()(problem, i, j)`; the incoming
`i` and `j` are overwritten with `0` and `1` at once. -/
def LibSVMSelectionCriterion (p : SvmProblem) : Selection :=
  let first := forLoop p.active (libsvmFirstBody p) (-sentinel, 0)
  let largestUp := first.1
  let i := first.2
  if largestUp = -sentinel then { value := 0, i := i, j := 1 }
  else
    let st := forLoop p.active (libsvmSecondBody p i largestUp)
      { smallestDown := sentinel, best := 0, j := 1 }
    if st.best = 0 then { value := 0, i := i, j := st.j }
    else { value := largestUp - st.smallestDown, i := i, j := st.j }

/-- The struct `HMGSelectionCriterion::MGStep`. -/
structure MGStep where
  index : Nat
  violation : ℚ
  gain : ℚ

/-- The local variables of the loop of `selectMGVariable`. -/
structure MGLoop where
  bestIndex : Nat
  bestGain : ℚ
  largestUp : ℚ
  smallestDown : ℚ

/-- The members of the class `HMGSelectionCriterion`. -/
structure HMGSelectionCriterion where
  last_i : Nat
  last_j : Nat
  useLibSVM : Bool
  smallProblem : Bool

/-- Modelled from the spec: `sqr` is declared outside this file; it squares its
argument in the argument type, here `std::size_t` of 64 bits. -/
def sqr (n : Nat) : Nat := (n * n) % 2 ^ 64

namespace HMGSelectionCriterion

/-- The method `isInCorner(problem)`. -/
def isInCorner (c : HMGSelectionCriterion) (p : SvmProblem) : Bool :=
  let Li := p.boxMin c.last_i
  let Ui := p.boxMax c.last_i
  let Lj := p.boxMin c.last_j
  let Uj := p.boxMax c.last_j
  let eps_i := (1 / 10 ^ 8) * (Ui - Li)
  let eps_j := (1 / 10 ^ 8) * (Uj - Lj)
  if (p.alpha c.last_i ≤ Li + eps_i ∨ p.alpha c.last_i ≥ Ui - eps_i)
      ∧ (p.alpha c.last_j ≤ Lj + eps_j ∨ p.alpha c.last_j ≥ Uj - eps_j) then
    true
  else false

/-- One round of the loop of `selectMGVariable(problem, i)`. For a zero
denominator `mu_max` is `inf`, `-inf` or `NaN`: the clamped step is then a
number (a distance to a bound) or `NaN`, `2.0 * mu_max - mu_star` is infinite
or `NaN`, and its product with the step and with the denominator `0` is `NaN`,
for which `gain > bestGain` is false, so that the round keeps the best pair. -/
def mgBody (p : SvmProblem) (i : Nat) (a : Nat) (st : MGLoop) : MGLoop :=
  let ab := p.alpha i
  let db := p.diagonal i
  let Lb := p.boxMin i
  let Ub := p.boxMax i
  let gb := p.gradient i
  let aa := p.alpha a
  let da := p.diagonal a
  let ga := p.gradient a
  let La := p.boxMin a
  let Ua := p.boxMax a
  let st1 := if aa < Ua then { st with largestUp := max st.largestUp ga } else st
  let st2 := if aa > La then { st1 with smallestDown := min st1.smallestDown ga } else st1
  if a = i then st2
  else
    let denominator := da + db - 2 * p.quadratic i a
    match divide (ga - gb) denominator with
    | DoubleQuotient.num mu_max =>
      let mu_star := mu_max
      let mu_star :=
        if aa + mu_star < La then La - aa
        else if mu_star + aa > Ua then Ua - aa
        else mu_star
      let mu_star :=
        if ab - mu_star < Lb then ab - Lb
        else if ab - mu_star > Ub then ab - Ub
        else mu_star
      let gain := mu_star * (2 * mu_max - mu_star) * denominator
      if gain > st2.bestGain then { st2 with bestGain := gain, bestIndex := a } else st2
    | _ => st2

/-- The method `selectMGVariable(problem, i)`. -/
def selectMGVariable (p : SvmProblem) (i : Nat) : MGStep :=
  let st := forLoop p.active (mgBody p i)
    { bestIndex := 0, bestGain := 0, largestUp := -sentinel, smallestDown := sentinel }
  { violation := st.largestUp - st.smallestDown, index := st.bestIndex, gain := st.bestGain }

/-- The first branch of `operator()`: clear `useLibSVM`, set `smallProblem` when
the squared active size is below the cache size, call
`LibSVMSelectionCriterion` and remember its pair. -/
def libSVMRegime (c : HMGSelectionCriterion) (p : SvmProblem) :
    Selection × HMGSelectionCriterion :=
  let smallProblem :=
    if !c.smallProblem && decide (sqr p.active < p.m_problem.maxCacheSize) then true
    else c.smallProblem
  let r := LibSVMSelectionCriterion p
  (r, { last_i := r.i, last_j := r.j, useLibSVM := false, smallProblem := smallProblem })

/-- The rest of `operator()`: the two passes of `selectMGVariable`, anchored at
`last_i` and at `last_j`; `i` and `j` are the caller's values, handed back
unchanged by the early return. -/
def maximumGainRegime (c : HMGSelectionCriterion) (p : SvmProblem) (i j : Nat) :
    Selection × HMGSelectionCriterion :=
  let besti := selectMGVariable p c.last_i
  if besti.violation = 0 then ({ value := 0, i := i, j := j }, c)
  else
    let bestj := selectMGVariable p c.last_j
    let ij : Nat × Nat :=
      if bestj.gain > besti.gain then (c.last_j, bestj.index) else (c.last_i, besti.index)
    let ij : Nat × Nat := if p.gradient ij.1 < p.gradient ij.2 then (ij.2, ij.1) else ij
    ({ value := besti.violation, i := ij.1, j := ij.2 },
      { c with last_i := ij.1, last_j := ij.2 })

/-- The call `HMGSelectionCriterion::operator()(problem, i, j)`: the selection
and the members afterwards. -/
def select (c : HMGSelectionCriterion) (p : SvmProblem) (i j : Nat) :
    Selection × HMGSelectionCriterion :=
  if c.smallProblem || c.useLibSVM || c.isInCorner p then c.libSVMRegime p
  else c.maximumGainRegime p i j

/-- The method `reset()`. -/
def reset (c : HMGSelectionCriterion) : HMGSelectionCriterion :=
  { c with useLibSVM := true, smallProblem := false }

end HMGSelectionCriterion

/-! ## Shrinking -/

/-- A counted loop `for (a = n - 1; a >= 0; --a) s = body a s`. -/
def forLoopDown {σ : Type} : Nat → (Nat → σ → σ) → σ → σ
  | 0, _, s => s
  | n + 1, body, s => forLoopDown n body (body n s)

/-- The index that sits in slot `k` after slots `a` and `b` changed places. -/
def swapIndex (a b k : Nat) : Nat :=
  if k = a then b else if k = b then a else k

/-- Modelled from the spec: `flipCoordinates` of the base classes is declared
outside this file; a deactivation is a permutation swap, which exchanges the
two slots in every per-variable array (alpha, bounds, linear part, permutation,
gradient) and in the rows and columns of the quadratic matrix. -/
def SvmProblem.flipCoordinates (s : SvmProblem) (a b : Nat) : SvmProblem :=
  { m_problem :=
      { dimensions := s.m_problem.dimensions
        quadratic := fun i j => s.m_problem.quadratic (swapIndex a b i) (swapIndex a b j)
        maxCacheSize := s.m_problem.maxCacheSize
        linear := fun k => s.m_problem.linear (swapIndex a b k)
        boxMin := fun k => s.m_problem.boxMin (swapIndex a b k)
        boxMax := fun k => s.m_problem.boxMax (swapIndex a b k)
        alpha := fun k => s.m_problem.alpha (swapIndex a b k)
        permutation := fun k => s.m_problem.permutation (swapIndex a b k) }
    m_gradient := fun k => s.m_gradient (swapIndex a b k)
    m_active := s.m_active }

/-- The value of `SvmShrinkingProblem::IterationsBetweenShrinking`. -/
def IterationsBetweenShrinking : Nat := 1000

/-- The class `SvmShrinkingProblem`: the inherited `SvmProblem` state and the
two members of its own. -/
structure SvmShrinkingProblem where
  base : SvmProblem
  m_isUnshrinked : Bool
  m_shrinkCounter : Nat

namespace SvmShrinkingProblem

def dimensions (s : SvmShrinkingProblem) : Nat := s.base.dimensions
def active (s : SvmShrinkingProblem) : Nat := s.base.active
def alpha (s : SvmShrinkingProblem) (a : Nat) : ℚ := s.base.alpha a
def gradient (s : SvmShrinkingProblem) (a : Nat) : ℚ := s.base.gradient a
def boxMin (s : SvmShrinkingProblem) (a : Nat) : ℚ := s.base.boxMin a
def boxMax (s : SvmShrinkingProblem) (a : Nat) : ℚ := s.base.boxMax a

/-- Modelled from the spec: `shrinkVariable(a)` of the base class is declared
outside this file; it deactivates slot `a` by swapping it with the last active
slot and decrementing the number of active variables. -/
def shrinkVariable (s : SvmShrinkingProblem) (a : Nat) : SvmShrinkingProblem :=
  { s with base :=
      { s.base.flipCoordinates a (s.base.m_active - 1) with m_active := s.base.m_active - 1 } }

/-- Modelled from the spec: `unshrink()` of the base class is declared outside
this file; it restores the full active set. -/
def unshrink (s : SvmShrinkingProblem) : SvmShrinkingProblem :=
  { s with base := { s.base with m_active := s.base.m_problem.dimensions } }

/-- The method `testShrinkVariable(a, largestUp, smallestDown)`. -/
def testShrinkVariable (s : SvmShrinkingProblem) (a : Nat) (largestUp smallestDown : ℚ) : Bool :=
  let v := s.alpha a
  let g := s.gradient a
  if (g ≤ smallestDown ∧ v = s.boxMin a) ∨ (g ≥ largestUp ∧ v = s.boxMax a) then true
  else false

/-- One round of the loop of `getMaxKKTViolations`, on the pair
`(largestUp, smallestDown)`. -/
def kktBody (s : SvmShrinkingProblem) (a : Nat) (st : ℚ × ℚ) : ℚ × ℚ :=
  let v := s.alpha a
  let g := s.gradient a
  let st1 := if v > s.boxMin a then (st.1, min st.2 g) else st
  if v < s.boxMax a then (max st1.1 g, st1.2) else st1

/-- The method `getMaxKKTViolations(largestUp, smallestDown, maxIndex)`; the two
reference parameters are returned as a pair. -/
def getMaxKKTViolations (s : SvmShrinkingProblem) (maxIndex : Nat) : ℚ × ℚ :=
  forLoop maxIndex (kktBody s) (-sentinel, sentinel)

/-- One round of the loop of `doShrink(largestUp, smallestDown)`. -/
def shrinkBody (largestUp smallestDown : ℚ) (a : Nat) (s : SvmShrinkingProblem) :
    SvmShrinkingProblem :=
  if s.testShrinkVariable a largestUp smallestDown then s.shrinkVariable a else s

/-- The method `doShrink(largestUp, smallestDown)`: the scan runs from slot
`active() - 1` down to slot `0`. -/
def doShrink (s : SvmShrinkingProblem) (largestUp smallestDown : ℚ) : SvmShrinkingProblem :=
  forLoopDown s.active (shrinkBody largestUp smallestDown) s

/-- The method `doReshrink()`. -/
def doReshrink (s : SvmShrinkingProblem) : SvmShrinkingProblem :=
  if s.active = s.dimensions then s
  else
    let s1 := s.unshrink
    let kkt := s1.getMaxKKTViolations s1.dimensions
    let s2 := s1.doShrink kkt.1 kkt.2
    { s2 with m_shrinkCounter := min s2.active IterationsBetweenShrinking }

/-- Modelled from the spec: `reshrink()` of the base class is declared outside
this file; the spec describes it as the unshrink followed by the repeated
scan, which is `doReshrink()`. -/
def reshrink (s : SvmShrinkingProblem) : SvmShrinkingProblem := s.doReshrink

end SvmShrinkingProblem

/-! ## Specification predicates -/

namespace SvmProblem

/-- The quadratic matrix is symmetric on the variables. -/
def Symmetric (s : SvmProblem) : Prop :=
  ∀ a b, a < s.dimensions → b < s.dimensions → s.quadratic a b = s.quadratic b a

/-- The gradient invariant: `gradient(a) = linear(a) - Σ_b Q(a,b) * alpha(b)`
for every variable `a`, the sum over all variables `b`. -/
def GradientInvariant (s : SvmProblem) : Prop :=
  ∀ a, a < s.dimensions →
    s.gradient a = s.linear a - ∑ b in Finset.range s.dimensions, s.quadratic a b * s.alpha b

/-- The feasibility invariant: every variable lies in its box. -/
def Feasible (s : SvmProblem) : Prop :=
  ∀ a, a < s.dimensions → s.boxMin a ≤ s.alpha a ∧ s.alpha a ≤ s.boxMax a

/-- The gradient of the construction when no row is skipped: every row `i`,
also one with `alpha(i) = 0`, is subtracted from the linear part. -/
def gradientAllRows (problem : Problem) : Nat → ℚ :=
  forLoop problem.dimensions
    (fun i g =>
      forLoop problem.dimensions
        (fun a g => Function.update g a (g a - problem.quadratic i a * problem.alpha i)) g)
    problem.linear

/-- Index `i` is the first active index attaining the maximum gradient among
the active variables below their upper bound. -/
def IsFirstMaxUp (s : SvmProblem) (i : Nat) : Prop :=
  i < s.active ∧ s.alpha i < s.boxMax i
    ∧ (∀ a, a < s.active → s.alpha a < s.boxMax a → s.gradient a ≤ s.gradient i)
    ∧ (∀ a, a < i → s.alpha a < s.boxMax a → s.gradient a < s.gradient i)

/-- Index `j` is the first active index attaining the minimum gradient among
the active variables above their lower bound. -/
def IsFirstMinDown (s : SvmProblem) (j : Nat) : Prop :=
  j < s.active ∧ s.alpha j > s.boxMin j
    ∧ (∀ a, a < s.active → s.alpha a > s.boxMin a → s.gradient j ≤ s.gradient a)
    ∧ (∀ a, a < j → s.alpha a > s.boxMin a → s.gradient j < s.gradient a)

/-- The second order score of `a` as partner of `i`:
`(gradient(i) - gradient(a))^2 / (diagonal(i) + diagonal(a) - 2 Q(i,a))`. -/
def secondOrderScore (s : SvmProblem) (i a : Nat) : ℚ :=
  (s.gradient i - s.gradient a) ^ 2 / (s.diagonal i + s.diagonal a - 2 * s.quadratic i a)

/-- Variable `a` is a candidate partner of `i`: above its lower bound, with a
smaller gradient than `i` and a nonzero quadratic coefficient. -/
def IsSecondCandidate (s : SvmProblem) (i a : Nat) : Prop :=
  s.alpha a > s.boxMin a ∧ s.gradient a < s.gradient i
    ∧ s.diagonal i + s.diagonal a - 2 * s.quadratic i a ≠ 0

/-- Index `j` is the first active index maximizing the second order score
among the candidate partners of `i`. -/
def IsFirstBestSecond (s : SvmProblem) (i j : Nat) : Prop :=
  j < s.active ∧ s.IsSecondCandidate i j
    ∧ (∀ a, a < s.active → s.IsSecondCandidate i a →
        s.secondOrderScore i a ≤ s.secondOrderScore i j)
    ∧ (∀ a, a < j → s.IsSecondCandidate i a →
        s.secondOrderScore i a < s.secondOrderScore i j)

/-- The pair `(largestUp, smallestDown)` is the pair of KKT thresholds of the
first `n` slots: the largest gradient of a slot below its upper bound, or the
sentinel `-1e100` if that is larger, and the smallest gradient of a slot above
its lower bound, or the sentinel `1e100` if that is smaller. -/
def IsKKTPair (s : SvmProblem) (n : Nat) (largestUp smallestDown : ℚ) : Prop :=
  (∀ a, a < n → s.alpha a < s.boxMax a → s.gradient a ≤ largestUp)
    ∧ (∀ a, a < n → s.alpha a > s.boxMin a → smallestDown ≤ s.gradient a)
    ∧ -sentinel ≤ largestUp ∧ smallestDown ≤ sentinel
    ∧ (largestUp = -sentinel ∨ ∃ a, a < n ∧ s.alpha a < s.boxMax a ∧ s.gradient a = largestUp)
    ∧ (smallestDown = sentinel
        ∨ ∃ a, a < n ∧ s.alpha a > s.boxMin a ∧ s.gradient a = smallestDown)

/-- State `t` holds the slots of state `s` in another order: slot `k` of `t` is
slot `σ k` of `s`, in every per-variable array and in the rows and columns of
the quadratic matrix. -/
def Rearranged (s t : SvmProblem) (σ : Nat → Nat) : Prop :=
  t.dimensions = s.dimensions
    ∧ (∀ k, t.alpha k = s.alpha (σ k))
    ∧ (∀ k, t.gradient k = s.gradient (σ k))
    ∧ (∀ k, t.boxMin k = s.boxMin (σ k))
    ∧ (∀ k, t.boxMax k = s.boxMax (σ k))
    ∧ (∀ k, t.linear k = s.linear (σ k))
    ∧ (∀ k, t.m_problem.permutation k = s.m_problem.permutation (σ k))
    ∧ (∀ i j, t.quadratic i j = s.quadratic (σ i) (σ j))

/-- The step that `updateSMO(i, j)` ends up applying: the Newton step
`numerator / denominator`, cut at `min(Ui - ai, aj - Lj)`. -/
def smoStep (s : SvmProblem) (i j : Nat) : ℚ :=
  let mu := (s.gradient i - s.gradient j) / (s.diagonal i + s.diagonal j - 2 * s.quadratic i j)
  if mu ≥ min (s.boxMax i - s.alpha i) (s.alpha j - s.boxMin j) then
    min (s.boxMax i - s.alpha i) (s.alpha j - s.boxMin j)
  else mu

/-- Move `alpha(i)` up and `alpha(j)` down by `mu` and update the gradient. -/
def applyStep (s : SvmProblem) (i j : Nat) (mu : ℚ) : SvmProblem :=
  ((s.setAlpha i (s.alpha i + mu)).setAlpha j (s.alpha j - mu)).updateGradient
    (fun a => mu * (s.quadratic i a - s.quadratic j a))

end SvmProblem

/-! ## The step and the gain of the maximum gain scan -/

/-- The clamped step `mu_star` that the loop of `selectMGVariable(problem, i)`
computes for the candidate `a` when the denominator is not zero. -/
def HMGSelectionCriterion.mgStep (p : SvmProblem) (i a : Nat) : ℚ :=
  let ab := p.alpha i
  let db := p.diagonal i
  let Lb := p.boxMin i
  let Ub := p.boxMax i
  let gb := p.gradient i
  let aa := p.alpha a
  let da := p.diagonal a
  let ga := p.gradient a
  let La := p.boxMin a
  let Ua := p.boxMax a
  let denominator := da + db - 2 * p.quadratic i a
  let mu_max := (ga - gb) / denominator
  let mu_star := mu_max
  let mu_star :=
    if aa + mu_star < La then La - aa
    else if mu_star + aa > Ua then Ua - aa
    else mu_star
  let mu_star :=
    if ab - mu_star < Lb then ab - Lb
    else if ab - mu_star > Ub then ab - Ub
    else mu_star
  mu_star

/-- The value `gain = mu_star * (2 * mu_max - mu_star) * denominator` that the
loop of `selectMGVariable(problem, i)` computes for the candidate `a` when the
denominator is not zero (for a zero denominator the loop computes `NaN` and
this value is `0`). -/
def HMGSelectionCriterion.mgGain (p : SvmProblem) (i a : Nat) : ℚ :=
  HMGSelectionCriterion.mgStep p i a
    * (2 * ((p.gradient a - p.gradient i) / (p.diagonal a + p.diagonal i - 2 * p.quadratic i a))
        - HMGSelectionCriterion.mgStep p i a)
    * (p.diagonal a + p.diagonal i - 2 * p.quadratic i a)

/-- A state with a deactivated variable: three variables in `[0, 1]`, the first
two interior and active, the third at its upper bound and deactivated
(`Q = [[2, 0, 1], [0, 2, 0], [1, 0, 2]]`, `alpha = [1/2, 1/2, 1]`,
`linear = [3, 1, 9/2]`, gradient `[1, 0, 2]`). -/
def shrunkState : SvmProblem :=
  { m_problem :=
      { dimensions := 3
        quadratic := fun i a =>
          if i = a then 2 else if (i = 0 ∧ a = 2) ∨ (i = 2 ∧ a = 0) then 1 else 0
        maxCacheSize := 0
        linear := fun a => if a = 0 then 3 else if a = 1 then 1 else 9 / 2
        boxMin := fun _ => 0
        boxMax := fun _ => 1
        alpha := fun a => if a = 2 then 1 else 1 / 2
        permutation := fun a => a }
    m_gradient := fun a => if a = 0 then 1 else if a = 1 then 0 else 2
    m_active := 2 }

/-! ## The deactivation scan -/

/-- The state of the deactivation scan of `s` when the slots from `a` upward
have been visited: `cur` holds the slots of `s` in the order `σ`, the slots
below `a` are untouched, the visited slots that are still active failed the
test, and the slots between the new and the old number of active variables
passed it. -/
def ScanInv (s cur : SvmShrinkingProblem) (lu sd : ℚ) (σ : Equiv.Perm ℕ) (a : Nat) : Prop :=
  s.base.Rearranged cur.base σ
    ∧ a ≤ cur.active ∧ cur.active ≤ s.active
    ∧ (∀ k, k < a → σ k = k)
    ∧ (∀ k, s.active ≤ k → σ k = k)
    ∧ (∀ k, a ≤ k → k < cur.active → s.testShrinkVariable (σ k) lu sd = false)
    ∧ (∀ k, cur.active ≤ k → k < s.active → s.testShrinkVariable (σ k) lu sd = true)
    ∧ cur.m_isUnshrinked = s.m_isUnshrinked ∧ cur.m_shrinkCounter = s.m_shrinkCounter

/-! ## Scans -/

/-- One round of a scan for the first index of the largest score among the
eligible indices: the running maximum and its index. -/
def scanBody (elig : Nat → Prop) [DecidablePred elig] (score : Nat → ℚ) (a : Nat)
    (st : ℚ × Nat) : ℚ × Nat :=
  if elig a ∧ score a > st.1 then (score a, a) else st

/-! ## Concrete states -/

/-- Two variables in `[0, 1]`, `Q = [[2, 1], [1, 2]]`, `linear = [1, 1]`,
`alpha = [1/2, 1/3]`. -/
def demoProblem : Problem :=
  { dimensions := 2
    quadratic := fun i a => if i = a then 2 else 1
    maxCacheSize := 0
    linear := fun _ => 1
    boxMin := fun _ => 0
    boxMax := fun _ => 1
    alpha := fun a => if a = 0 then 1 / 2 else 1 / 3
    permutation := fun a => a }

/-- The state on `demoProblem` with its gradient `[-1/3, -1/6]`. -/
def demoState : SvmProblem :=
  { m_problem := demoProblem
    m_gradient := fun a => if a = 0 then -1 / 3 else -1 / 6
    m_active := 2 }

/-- A feasible state with `alpha = [0, 1]` at the corner of the box,
`linear = [0, 3]` and gradient `[-1, 1]`. -/
def cornerState : SvmProblem :=
  { m_problem :=
      { dimensions := 2
        quadratic := fun i a => if i = a then 2 else 1
        maxCacheSize := 0
        linear := fun a => if a = 0 then 0 else 3
        boxMin := fun _ => 0
        boxMax := fun _ => 1
        alpha := fun a => if a = 0 then 0 else 1
        permutation := fun a => a }
    m_gradient := fun a => if a = 0 then -1 else 1
    m_active := 2 }

/-- Three strictly interior variables in `[0, 1]` with gradients `[5, -3, 2]`
(`Q = 2 I`, `alpha = 1/2`, `linear = [6, -2, 3]`). -/
def mvpExample : SvmProblem :=
  { m_problem :=
      { dimensions := 3
        quadratic := fun i a => if i = a then 2 else 0
        maxCacheSize := 0
        linear := fun a => if a = 0 then 6 else if a = 1 then -2 else 3
        boxMin := fun _ => 0
        boxMax := fun _ => 1
        alpha := fun _ => 1 / 2
        permutation := fun a => a }
    m_gradient := fun a => if a = 0 then 5 else if a = 1 then -3 else 2
    m_active := 3 }

/-- Two variables in `[0, 1]` pinned at the bound their gradient pushes them
to: `alpha = [1, 0]`, gradient `[1, -1]` (`Q = 2 I`, `linear = [3, -1]`). -/
def kktState : SvmProblem :=
  { m_problem :=
      { dimensions := 2
        quadratic := fun i a => if i = a then 2 else 0
        maxCacheSize := 0
        linear := fun a => if a = 0 then 3 else -1
        boxMin := fun _ => 0
        boxMax := fun _ => 1
        alpha := fun a => if a = 0 then 1 else 0
        permutation := fun a => a }
    m_gradient := fun a => if a = 0 then 1 else -1
    m_active := 2 }

/-- Four interior variables in `[0, 1]` with gradients `[0, 0, 5, -5]`
(`Q = 2 I`, `alpha = 1/2`, `linear = [1, 1, 6, -4]`). -/
def hmgExample : SvmProblem :=
  { m_problem :=
      { dimensions := 4
        quadratic := fun i a => if i = a then 2 else 0
        maxCacheSize := 0
        linear := fun a => if a = 0 then 1 else if a = 1 then 1 else if a = 2 then 6 else -4
        boxMin := fun _ => 0
        boxMax := fun _ => 1
        alpha := fun _ => 1 / 2
        permutation := fun a => a }
    m_gradient := fun a => if a = 0 then 0 else if a = 1 then 0 else if a = 2 then 5 else -5
    m_active := 4 }

/-- A selector past its first call on a small problem: the last pair is
`(0, 1)`, `useLibSVM` is cleared and `smallProblem` is set. -/
def smallSelector : HMGSelectionCriterion :=
  { last_i := 0, last_j := 1, useLibSVM := false, smallProblem := true }

/-- A selector past its first call on a problem that is not small: the last
pair is `(0, 1)` and both flags are cleared. -/
def largeSelector : HMGSelectionCriterion :=
  { last_i := 0, last_j := 1, useLibSVM := false, smallProblem := false }

/-- A fully active shrinking problem of two variables in `[0, 1]`: variable `0`
sits at its upper bound with gradient `1`, variable `1` is interior with
gradient `0` (`Q = 2 I`, `alpha = [1, 1/2]`, `linear = [3, 1]`). -/
def shrinkExample : SvmShrinkingProblem :=
  { base :=
      { m_problem :=
          { dimensions := 2
            quadratic := fun i a => if i = a then 2 else 0
            maxCacheSize := 0
            linear := fun a => if a = 0 then 3 else 1
            boxMin := fun _ => 0
            boxMax := fun _ => 1
            alpha := fun a => if a = 0 then 1 else 1 / 2
            permutation := fun a => a }
        m_gradient := fun a => if a = 0 then 1 else 0
        m_active := 2 }
    m_isUnshrinked := false
    m_shrinkCounter := 2 }

/-- Two interior variables in `[0, 1]` that form a violating pair with a zero
quadratic coefficient: `Q = [[1, 1], [1, 1]]`, `alpha = [1/2, 1/2]`,
`linear = [2, 0]`, gradient `[1, -1]`. -/
def degenerateState : SvmProblem :=
  { m_problem :=
      { dimensions := 2
        quadratic := fun _ _ => 1
        maxCacheSize := 0
        linear := fun a => if a = 0 then 2 else 0
        boxMin := fun _ => 0
        boxMax := fun _ => 1
        alpha := fun _ => 1 / 2
        permutation := fun a => a }
    m_gradient := fun a => if a = 0 then 1 else -1
    m_active := 2 }

/-- A fully active shrinking problem of three variables in `[0, 1]` with a
positive KKT gap: variable `0` sits at its upper bound with gradient `2`, the
other two are interior with gradients `1` and `0` (`Q = 2 I`,
`alpha = [1, 1/2, 1/2]`, `linear = [4, 2, 1]`). -/
def gapExample : SvmShrinkingProblem :=
  { base :=
      { m_problem :=
          { dimensions := 3
            quadratic := fun i a => if i = a then 2 else 0
            maxCacheSize := 0
            linear := fun a => if a = 0 then 4 else if a = 1 then 2 else 1
            boxMin := fun _ => 0
            boxMax := fun _ => 1
            alpha := fun a => if a = 0 then 1 else 1 / 2
            permutation := fun a => a }
        m_gradient := fun a => if a = 0 then 2 else if a = 1 then 1 else 0
        m_active := 3 }
    m_isUnshrinked := false
    m_shrinkCounter := 3 }

theorem forLoop_zero {σ : Type} (body : Nat → σ → σ) (s : σ) : forLoop 0 body s = s := rfl

theorem forLoop_succ {σ : Type} (n : Nat) (body : Nat → σ → σ) (s : σ) :
    forLoop (n + 1) body s = body n (forLoop n body s) := by
  simp [forLoop, List.range_succ, List.foldl_append]

/-- A loop that rewrites entry `a` of a vector in round `a`, pointwise. -/
theorem forLoop_update_apply (n : Nat) (f : Nat → ℚ → ℚ) (g : Nat → ℚ) (a : Nat) :
    forLoop n (fun a g => Function.update g a (f a (g a))) g a
      = if a < n then f a (g a) else g a := by
  induction n with
  | zero => simp [forLoop_zero]
  | succ n ih =>
    rw [forLoop_succ]
    by_cases h : a = n
    · subst h
      simp [ih]
    · rw [Function.update_noteq h, ih]
      by_cases h2 : a < n
      · simp [h2, Nat.lt_succ_of_lt h2]
      · have : ¬ a < n + 1 := by omega
        simp [h2, this]

/-- A function of the loop state that follows a loop of its own. -/
theorem forLoop_map {σ τ : Type} (f : σ → τ) (body : Nat → σ → σ) (body2 : Nat → τ → τ)
    (h : ∀ a s, f (body a s) = body2 a (f s)) (n : Nat) (s : σ) :
    f (forLoop n body s) = forLoop n body2 (f s) := by
  induction n with
  | zero => rfl
  | succ n ih => rw [forLoop_succ, forLoop_succ, h, ih]

/-- What the scan has found after `n` rounds: either nothing above the initial
value, or the first index of the largest eligible score. -/
theorem scan_spec (elig : Nat → Prop) [DecidablePred elig] (score : Nat → ℚ) (n : Nat)
    (m0 : ℚ) (k0 : Nat) :
    m0 ≤ (forLoop n (scanBody elig score) (m0, k0)).1
      ∧ (∀ a, a < n → elig a → score a ≤ (forLoop n (scanBody elig score) (m0, k0)).1)
      ∧ (forLoop n (scanBody elig score) (m0, k0) = (m0, k0)
        ∨ (m0 < (forLoop n (scanBody elig score) (m0, k0)).1
          ∧ (forLoop n (scanBody elig score) (m0, k0)).2 < n
          ∧ elig (forLoop n (scanBody elig score) (m0, k0)).2
          ∧ score (forLoop n (scanBody elig score) (m0, k0)).2
              = (forLoop n (scanBody elig score) (m0, k0)).1
          ∧ ∀ a, a < (forLoop n (scanBody elig score) (m0, k0)).2 → elig a →
              score a < (forLoop n (scanBody elig score) (m0, k0)).1)) := by
  induction n with
  | zero =>
    refine ⟨le_refl _, fun a ha => absurd ha (Nat.not_lt_zero a), Or.inl rfl⟩
  | succ n ih =>
    obtain ⟨h1, h2, h3⟩ := ih
    rw [forLoop_succ]
    generalize forLoop n (scanBody elig score) (m0, k0) = r at h1 h2 h3
    unfold scanBody
    by_cases hc : elig n ∧ score n > r.1
    · rw [if_pos hc]
      refine ⟨le_trans h1 (le_of_lt hc.2), ?_, Or.inr ⟨lt_of_le_of_lt h1 hc.2, Nat.lt_succ_self n,
        hc.1, rfl, ?_⟩⟩
      · intro a ha he
        rcases Nat.lt_succ_iff_lt_or_eq.mp ha with h | h
        · exact le_trans (h2 a h he) (le_of_lt hc.2)
        · rw [h]
      · intro a ha he
        exact lt_of_le_of_lt (h2 a ha he) hc.2
    · rw [if_neg hc]
      refine ⟨h1, ?_, ?_⟩
      · intro a ha he
        rcases Nat.lt_succ_iff_lt_or_eq.mp ha with h | h
        · exact h2 a h he
        · subst h
          exact not_lt.mp (fun hlt => hc ⟨he, hlt⟩)
      · rcases h3 with h | ⟨ha, hb, hcc, hd, he⟩
        · exact Or.inl h
        · exact Or.inr ⟨ha, Nat.lt_succ_of_lt hb, hcc, hd, he⟩

/-- The running maximum of the scan does not depend on the initial index. -/
theorem scan_fst_indep (elig : Nat → Prop) [DecidablePred elig] (score : Nat → ℚ) (n : Nat)
    (m0 : ℚ) (k0 k1 : Nat) :
    (forLoop n (scanBody elig score) (m0, k0)).1
      = (forLoop n (scanBody elig score) (m0, k1)).1 := by
  have h : ∀ k, (forLoop n (scanBody elig score) (m0, k)).1
      = forLoop n (fun a m => if elig a ∧ score a > m then score a else m) m0 := by
    intro k
    exact forLoop_map Prod.fst (scanBody elig score) _
      (fun a st => by unfold scanBody; split_ifs <;> rfl) n (m0, k)
  rw [h k0, h k1]

/-- Two scans that both found something found the same index. -/
theorem scan_snd_indep (elig : Nat → Prop) [DecidablePred elig] (score : Nat → ℚ) (n : Nat)
    (m0 : ℚ) (k0 k1 : Nat) (h : (forLoop n (scanBody elig score) (m0, k0)).1 ≠ m0) :
    (forLoop n (scanBody elig score) (m0, k0)).2
      = (forLoop n (scanBody elig score) (m0, k1)).2 := by
  have e := scan_fst_indep elig score n m0 k0 k1
  obtain ⟨_, _, h3⟩ := scan_spec elig score n m0 k0
  obtain ⟨_, _, g3⟩ := scan_spec elig score n m0 k1
  rcases h3 with h3 | ⟨_, _, a3, a4, a5⟩
  · rw [h3] at h
    exact absurd rfl h
  · rcases g3 with g3 | ⟨_, _, b3, b4, b5⟩
    · rw [e, g3] at h
      exact absurd rfl h
    · rw [← e] at b4 b5
      rcases Nat.lt_trichotomy (forLoop n (scanBody elig score) (m0, k0)).2
        (forLoop n (scanBody elig score) (m0, k1)).2 with hlt | heq | hgt
      · exact absurd (b5 _ hlt a3) (by rw [a4]; exact lt_irrefl _)
      · exact heq
      · exact absurd (a5 _ hgt b3) (by rw [b4]; exact lt_irrefl _)

/-! ## The scans of the selection criteria -/

/-- The pair `(largestUp, i)` of the most violating pair loop is a scan for the
largest gradient among the variables below their upper bound. -/
theorem mvp_up (p : SvmProblem) (n : Nat) (st : MVPLoop) :
    ((forLoop n (mvpBody p) st).largestUp, (forLoop n (mvpBody p) st).i)
      = forLoop n (scanBody (fun a => p.alpha a < p.boxMax a) p.gradient)
          (st.largestUp, st.i) := by
  refine forLoop_map (fun st : MVPLoop => (st.largestUp, st.i)) (mvpBody p) _ ?_ n st
  intro a st
  unfold mvpBody scanBody
  by_cases h1 : p.alpha a < p.boxMax a <;> by_cases h2 : p.gradient a > st.largestUp <;>
    by_cases h3 : p.alpha a > p.boxMin a <;> simp only [h1, h2, h3, if_true, if_false,
      true_and, false_and, and_true, and_false] <;> split_ifs <;> rfl

/-- The pair `(-smallestDown, j)` of the most violating pair loop is a scan for
the largest negated gradient among the variables above their lower bound. -/
theorem mvp_down (p : SvmProblem) (n : Nat) (st : MVPLoop) :
    (-(forLoop n (mvpBody p) st).smallestDown, (forLoop n (mvpBody p) st).j)
      = forLoop n (scanBody (fun a => p.alpha a > p.boxMin a) (fun a => -p.gradient a))
          (-st.smallestDown, st.j) := by
  refine forLoop_map (fun st : MVPLoop => (-st.smallestDown, st.j)) (mvpBody p) _ ?_ n st
  intro a st
  have hneg : ∀ x : ℚ, (-p.gradient a > -x) ↔ p.gradient a < x := fun x => neg_lt_neg_iff
  unfold mvpBody scanBody
  by_cases h1 : p.alpha a < p.boxMax a <;> by_cases h2 : p.gradient a > st.largestUp <;>
    by_cases h3 : p.alpha a > p.boxMin a <;> by_cases h4 : p.gradient a < st.smallestDown <;>
    simp only [h1, h2, h3, h4, hneg, if_true, if_false, true_and, false_and, and_true, and_false]

/-- The running `smallestDown` of the most violating pair loop. -/
theorem mvp_smallestDown (p : SvmProblem) (n : Nat) (st : MVPLoop) :
    (forLoop n (mvpBody p) st).smallestDown
      = forLoop n (fun a sd => if p.alpha a > p.boxMin a then min sd (p.gradient a) else sd)
          st.smallestDown := by
  refine forLoop_map (fun st : MVPLoop => st.smallestDown) (mvpBody p) _ ?_ n st
  intro a st
  unfold mvpBody
  by_cases h4 : p.gradient a < st.smallestDown
  · by_cases h1 : p.alpha a < p.boxMax a <;> by_cases h2 : p.gradient a > st.largestUp <;>
      by_cases h3 : p.alpha a > p.boxMin a <;>
      simp only [h1, h2, h3, h4, if_true, if_false, min_eq_right (le_of_lt h4)]
  · by_cases h1 : p.alpha a < p.boxMax a <;> by_cases h2 : p.gradient a > st.largestUp <;>
      by_cases h3 : p.alpha a > p.boxMin a <;>
      simp only [h1, h2, h3, h4, if_true, if_false, min_eq_left (not_lt.mp h4)]

theorem libsvmFirstBody_eq (p : SvmProblem) :
    libsvmFirstBody p = scanBody (fun a => p.alpha a < p.boxMax a) p.gradient := by
  funext a st
  unfold libsvmFirstBody scanBody
  by_cases h1 : p.alpha a < p.boxMax a <;> by_cases h2 : p.gradient a > st.1 <;>
    simp only [h1, h2, if_true, if_false, true_and, false_and, and_true, and_false]

/-- The running `smallestDown` of the second loop of the second order selection. -/
theorem libsvm_smallestDown (p : SvmProblem) (i : Nat) (largestUp : ℚ) (n : Nat)
    (st : LibSVMLoop) :
    (forLoop n (libsvmSecondBody p i largestUp) st).smallestDown
      = forLoop n (fun a sd => if p.alpha a > p.boxMin a then min sd (p.gradient a) else sd)
          st.smallestDown := by
  refine forLoop_map (fun st : LibSVMLoop => st.smallestDown) (libsvmSecondBody p i largestUp)
    _ ?_ n st
  intro a st
  unfold libsvmSecondBody
  simp only
  split_ifs <;> rfl

/-- The pair `(best, j)` of the second loop is a scan for the largest
`grad_diff^2 / quad_coef` among the variables above their lower bound with
positive `grad_diff` and nonzero `quad_coef`. -/
theorem libsvm_best (p : SvmProblem) (i : Nat) (largestUp : ℚ) (n : Nat) (st : LibSVMLoop) :
    ((forLoop n (libsvmSecondBody p i largestUp) st).best,
        (forLoop n (libsvmSecondBody p i largestUp) st).j)
      = forLoop n
          (scanBody
            (fun a => p.alpha a > p.boxMin a ∧ largestUp - p.gradient a > 0
              ∧ p.diagonal i + p.diagonal a - 2 * p.quadratic i a ≠ 0)
            (fun a => (largestUp - p.gradient a) * (largestUp - p.gradient a)
              / (p.diagonal i + p.diagonal a - 2 * p.quadratic i a)))
          (st.best, st.j) := by
  refine forLoop_map (fun st : LibSVMLoop => (st.best, st.j)) (libsvmSecondBody p i largestUp)
    _ ?_ n st
  intro a st
  unfold libsvmSecondBody scanBody
  by_cases h1 : p.alpha a > p.boxMin a <;> by_cases h2 : largestUp - p.gradient a > 0 <;>
    by_cases h3 : p.diagonal i + p.diagonal a - 2 * p.quadratic i a = 0 <;>
    by_cases h4 : (largestUp - p.gradient a) * (largestUp - p.gradient a)
      / (p.diagonal i + p.diagonal a - 2 * p.quadratic i a) > st.best <;>
    simp only [h1, h2, h3, h4, if_true, if_false, true_and, false_and, and_true, and_false,
      ne_eq, not_true_eq_false, not_false_eq_true]

/-! ## The KKT thresholds -/

/-- What `getMaxKKTViolations` returns for the first `n` slots. -/
theorem getMaxKKTViolations_spec (s : SvmShrinkingProblem) (n : Nat) :
    s.base.IsKKTPair n (s.getMaxKKTViolations n).1 (s.getMaxKKTViolations n).2 := by
  unfold SvmShrinkingProblem.getMaxKKTViolations
  induction n with
  | zero =>
    refine ⟨fun a ha => absurd ha (Nat.not_lt_zero a), fun a ha => absurd ha (Nat.not_lt_zero a),
      le_refl _, le_refl _, Or.inl rfl, Or.inl rfl⟩
  | succ n ih =>
    rw [forLoop_succ]
    generalize forLoop n (SvmShrinkingProblem.kktBody s) (-sentinel, sentinel) = r at ih
    obtain ⟨h1, h2, h3, h4, h5, h6⟩ := ih
    have hfst : (SvmShrinkingProblem.kktBody s n r).1
        = if s.base.alpha n < s.base.boxMax n then max r.1 (s.base.gradient n) else r.1 := by
      unfold SvmShrinkingProblem.kktBody SvmShrinkingProblem.alpha SvmShrinkingProblem.boxMax
        SvmShrinkingProblem.boxMin SvmShrinkingProblem.gradient
      dsimp only
      split_ifs <;> rfl
    have hsnd : (SvmShrinkingProblem.kktBody s n r).2
        = if s.base.alpha n > s.base.boxMin n then min r.2 (s.base.gradient n) else r.2 := by
      unfold SvmShrinkingProblem.kktBody SvmShrinkingProblem.alpha SvmShrinkingProblem.boxMax
        SvmShrinkingProblem.boxMin SvmShrinkingProblem.gradient
      dsimp only
      split_ifs <;> rfl
    rw [hfst, hsnd]
    refine ⟨?_, ?_, ?_, ?_, ?_, ?_⟩
    · intro a ha hu
      rcases Nat.lt_succ_iff_lt_or_eq.mp ha with h | h
      · have := h1 a h hu
        split_ifs
        · exact le_trans this (le_max_left _ _)
        · exact this
      · subst h
        rw [if_pos hu]
        exact le_max_right _ _
    · intro a ha hd
      rcases Nat.lt_succ_iff_lt_or_eq.mp ha with h | h
      · have := h2 a h hd
        split_ifs
        · exact le_trans (min_le_left _ _) this
        · exact this
      · subst h
        rw [if_pos hd]
        exact min_le_right _ _
    · split_ifs
      · exact le_trans h3 (le_max_left _ _)
      · exact h3
    · split_ifs
      · exact le_trans (min_le_left _ _) h4
      · exact h4
    · by_cases hu : s.base.alpha n < s.base.boxMax n
      · rw [if_pos hu]
        rcases le_total r.1 (s.base.gradient n) with hle | hle
        · rw [max_eq_right hle]
          exact Or.inr ⟨n, Nat.lt_succ_self n, hu, rfl⟩
        · rw [max_eq_left hle]
          rcases h5 with h5 | ⟨a, ha, hau, hag⟩
          · exact Or.inl h5
          · exact Or.inr ⟨a, Nat.lt_succ_of_lt ha, hau, hag⟩
      · rw [if_neg hu]
        rcases h5 with h5 | ⟨a, ha, hau, hag⟩
        · exact Or.inl h5
        · exact Or.inr ⟨a, Nat.lt_succ_of_lt ha, hau, hag⟩
    · by_cases hd : s.base.alpha n > s.base.boxMin n
      · rw [if_pos hd]
        rcases le_total r.2 (s.base.gradient n) with hle | hle
        · rw [min_eq_left hle]
          rcases h6 with h6 | ⟨a, ha, had, hag⟩
          · exact Or.inl h6
          · exact Or.inr ⟨a, Nat.lt_succ_of_lt ha, had, hag⟩
        · rw [min_eq_right hle]
          exact Or.inr ⟨n, Nat.lt_succ_self n, hd, rfl⟩
      · rw [if_neg hd]
        rcases h6 with h6 | ⟨a, ha, had, hag⟩
        · exact Or.inl h6
        · exact Or.inr ⟨a, Nat.lt_succ_of_lt ha, had, hag⟩

/-- The pair of KKT thresholds of the first `n` slots is unique. -/
theorem IsKKTPair_unique (s : SvmProblem) (n : Nat) (lu sd lu2 sd2 : ℚ)
    (h : s.IsKKTPair n lu sd) (h2 : s.IsKKTPair n lu2 sd2) : lu = lu2 ∧ sd = sd2 := by
  obtain ⟨a1, a2, a3, a4, a5, a6⟩ := h
  obtain ⟨b1, b2, b3, b4, b5, b6⟩ := h2
  constructor
  · apply le_antisymm
    · rcases a5 with a5 | ⟨a, ha, hau, hag⟩
      · rw [a5]; exact b3
      · rw [← hag]; exact b1 a ha hau
    · rcases b5 with b5 | ⟨a, ha, hau, hag⟩
      · rw [b5]; exact a3
      · rw [← hag]; exact a1 a ha hau
  · apply le_antisymm
    · rcases b6 with b6 | ⟨a, ha, had, hag⟩
      · rw [b6]; exact a4
      · rw [← hag]; exact a2 a ha had
    · rcases a6 with a6 | ⟨a, ha, had, hag⟩
      · rw [a6]; exact b4
      · rw [← hag]; exact b2 a ha had

theorem testShrinkVariable_iff (s : SvmShrinkingProblem) (a : Nat) (lu sd : ℚ) :
    s.testShrinkVariable a lu sd = true
      ↔ ((s.base.gradient a ≤ sd ∧ s.base.alpha a = s.base.boxMin a)
        ∨ (s.base.gradient a ≥ lu ∧ s.base.alpha a = s.base.boxMax a)) := by
  unfold SvmShrinkingProblem.testShrinkVariable SvmShrinkingProblem.alpha
    SvmShrinkingProblem.boxMax SvmShrinkingProblem.boxMin SvmShrinkingProblem.gradient
  dsimp only
  split_ifs with h
  · exact ⟨fun _ => h, fun _ => rfl⟩
  · exact ⟨fun h2 => absurd h2 (by decide), fun h2 => absurd h2 h⟩

/-! ## Exactness of the deactivation scan -/

theorem swapIndex_eq_swap (a b k : Nat) : swapIndex a b k = Equiv.swap a b k := by
  unfold swapIndex
  rw [Equiv.swap_apply_def]

theorem forLoopDown_zero {σ : Type} (body : Nat → σ → σ) (s : σ) :
    forLoopDown 0 body s = s := rfl

theorem forLoopDown_succ {σ : Type} (n : Nat) (body : Nat → σ → σ) (s : σ) :
    forLoopDown (n + 1) body s = forLoopDown n body (body n s) := rfl

/-- The test reads the slot of the rearranged state. -/
theorem testShrinkVariable_rearranged (s cur : SvmShrinkingProblem) (σ : Nat → Nat)
    (h : s.base.Rearranged cur.base σ) (a : Nat) (lu sd : ℚ) :
    cur.testShrinkVariable a lu sd = s.testShrinkVariable (σ a) lu sd := by
  obtain ⟨_, h1, h2, h3, h4, _⟩ := h
  unfold SvmShrinkingProblem.testShrinkVariable SvmShrinkingProblem.alpha
    SvmShrinkingProblem.boxMax SvmShrinkingProblem.boxMin SvmShrinkingProblem.gradient
  rw [h1, h2, h3, h4]

/-- A deactivation composes the order of the slots with a swap. -/
theorem shrinkVariable_rearranged (s cur : SvmShrinkingProblem) (σ : Equiv.Perm ℕ)
    (h : s.base.Rearranged cur.base σ) (a : Nat) :
    s.base.Rearranged (cur.shrinkVariable a).base
      ((Equiv.swap a (cur.active - 1)).trans σ) := by
  obtain ⟨h0, h1, h2, h3, h4, h5, h6, h7⟩ := h
  have e : ∀ k, ((Equiv.swap a (cur.active - 1)).trans σ) k
      = σ (swapIndex a (cur.base.m_active - 1) k) := by
    intro k
    rw [swapIndex_eq_swap]
    rfl
  refine ⟨h0, fun k => ?_, fun k => ?_, fun k => ?_, fun k => ?_, fun k => ?_, fun k => ?_,
    fun i j => ?_⟩
  · rw [e]; exact h1 _
  · rw [e]; exact h2 _
  · rw [e]; exact h3 _
  · rw [e]; exact h4 _
  · rw [e]; exact h5 _
  · rw [e]; exact h6 _
  · rw [e, e]; exact h7 _ _

/-- One round of the scan keeps the invariant. -/
theorem scan_step (s cur : SvmShrinkingProblem) (lu sd : ℚ) (σ : Equiv.Perm ℕ) (a : Nat)
    (h : ScanInv s cur lu sd σ (a + 1)) :
    ∃ σ2 : Equiv.Perm ℕ, ScanInv s (SvmShrinkingProblem.shrinkBody lu sd a cur) lu sd σ2 a := by
  obtain ⟨hr, h1, h2, h3, h4, h5, h6, h7, h8⟩ := h
  have hσa : σ a = a := h3 a (Nat.lt_succ_self a)
  have ht := testShrinkVariable_rearranged s cur σ hr a lu sd
  rw [hσa] at ht
  unfold SvmShrinkingProblem.shrinkBody
  by_cases hc : cur.testShrinkVariable a lu sd = true
  · rw [if_pos hc]
    have hL : a ≤ cur.active - 1 := Nat.le_sub_one_of_lt h1
    have hact : (cur.shrinkVariable a).active = cur.active - 1 := rfl
    have hLn : cur.active - 1 < s.active := by
      have : 0 < cur.active := lt_of_lt_of_le (Nat.succ_pos a) h1
      omega
    refine ⟨(Equiv.swap a (cur.active - 1)).trans σ, shrinkVariable_rearranged s cur σ hr a,
      ?_, ?_, ?_, ?_, ?_, ?_, h7, h8⟩
    · rw [hact]; exact hL
    · rw [hact]; exact le_trans (Nat.sub_le _ _) h2
    · intro k hk
      have e1 : k ≠ a := Nat.ne_of_lt hk
      have e2 : k ≠ cur.active - 1 := Nat.ne_of_lt (lt_of_lt_of_le hk hL)
      show σ (Equiv.swap a (cur.active - 1) k) = k
      rw [Equiv.swap_apply_of_ne_of_ne e1 e2]
      exact h3 k (Nat.lt_succ_of_lt hk)
    · intro k hk
      have e1 : k ≠ a := by omega
      have e2 : k ≠ cur.active - 1 := by omega
      show σ (Equiv.swap a (cur.active - 1) k) = k
      rw [Equiv.swap_apply_of_ne_of_ne e1 e2]
      exact h4 k hk
    · intro k hk1 hk2
      rw [hact] at hk2
      show s.testShrinkVariable (σ (Equiv.swap a (cur.active - 1) k)) lu sd = false
      by_cases e1 : k = a
      · subst e1
        rw [Equiv.swap_apply_left]
        exact h5 _ (by omega) (by omega)
      · have e2 : k ≠ cur.active - 1 := Nat.ne_of_lt hk2
        rw [Equiv.swap_apply_of_ne_of_ne e1 e2]
        exact h5 k (by omega) (by omega)
    · intro k hk1 hk2
      rw [hact] at hk1
      show s.testShrinkVariable (σ (Equiv.swap a (cur.active - 1) k)) lu sd = true
      by_cases e2 : k = cur.active - 1
      · rw [e2, Equiv.swap_apply_right, hσa, ← ht]
        exact hc
      · have e1 : k ≠ a := by omega
        rw [Equiv.swap_apply_of_ne_of_ne e1 e2]
        exact h6 k (by omega) hk2
  · rw [if_neg hc]
    refine ⟨σ, hr, Nat.le_of_succ_le h1, h2, fun k hk => h3 k (Nat.lt_succ_of_lt hk), h4, ?_, h6,
      h7, h8⟩
    intro k hk1 hk2
    by_cases e1 : k = a
    · subst e1
      rw [hσa, ← ht]
      exact Bool.eq_false_iff.mpr hc
    · exact h5 k (by omega) hk2

/-- The scan from slot `a - 1` down to slot `0` keeps the invariant. -/
theorem scan_all (s : SvmShrinkingProblem) (lu sd : ℚ) (a : Nat) :
    ∀ (cur : SvmShrinkingProblem) (σ : Equiv.Perm ℕ), ScanInv s cur lu sd σ a →
      ∃ σ2 : Equiv.Perm ℕ,
        ScanInv s (forLoopDown a (SvmShrinkingProblem.shrinkBody lu sd) cur) lu sd σ2 0 := by
  induction a with
  | zero => exact fun cur σ h => ⟨σ, h⟩
  | succ a ih =>
    intro cur σ h
    obtain ⟨σ2, h2⟩ := scan_step s cur lu sd σ a h
    rw [forLoopDown_succ]
    exact ih _ σ2 h2

/-- A permutation that fixes every slot from `n` upward maps the slots below
`n` to slots below `n`. -/
theorem perm_lt_of_fix (σ : Equiv.Perm ℕ) (n : Nat) (hfix : ∀ k, n ≤ k → σ k = k) (k : Nat)
    (hk : k < n) : σ k < n := by
  by_contra hge
  have h1 : σ (σ k) = σ k := hfix (σ k) (not_lt.mp hge)
  have h2 : σ k = k := σ.injective h1
  rw [h2] at hge
  exact hge hk

/-- The whole scan of `doShrink` ends in the invariant at slot `0`. -/
theorem doShrink_scan (s : SvmShrinkingProblem) (lu sd : ℚ) :
    ∃ σ : Equiv.Perm ℕ, ScanInv s (s.doShrink lu sd) lu sd σ 0 := by
  unfold SvmShrinkingProblem.doShrink
  refine scan_all s lu sd s.active s (Equiv.refl ℕ) ?_
  refine ⟨⟨rfl, fun _ => rfl, fun _ => rfl, fun _ => rfl, fun _ => rfl, fun _ => rfl,
    fun _ => rfl, fun _ _ => rfl⟩, le_refl _, le_refl _, fun _ _ => rfl, fun _ _ => rfl, ?_, ?_,
    rfl, rfl⟩
  · intro k hk1 hk2
    exact absurd hk2 (not_lt.mpr hk1)
  · intro k hk1 hk2
    exact absurd hk2 (not_lt.mpr hk1)

/-- Every slot of `s` that failed the test sits in an active slot at the end of
the scan, every slot that passed it in a deactivated one. -/
theorem scan_onto (s cur : SvmShrinkingProblem) (lu sd : ℚ) (σ : Equiv.Perm ℕ)
    (h : ScanInv s cur lu sd σ 0) (m : Nat) (hm : m < s.active) :
    (s.testShrinkVariable m lu sd = false → ∃ k, k < cur.active ∧ σ k = m)
      ∧ (s.testShrinkVariable m lu sd = true →
          ∃ k, cur.active ≤ k ∧ k < s.active ∧ σ k = m) := by
  obtain ⟨_, _, _, _, h4, h5, h6, _, _⟩ := h
  have hk : σ.symm m < s.active := by
    refine perm_lt_of_fix σ.symm s.active (fun k hk => ?_) m hm
    rw [Equiv.symm_apply_eq, h4 k hk]
  have hσ : σ (σ.symm m) = m := σ.apply_symm_apply m
  constructor
  · intro ht
    refine ⟨σ.symm m, ?_, hσ⟩
    by_contra hge
    have := h6 (σ.symm m) (not_lt.mp hge) hk
    rw [hσ, ht] at this
    exact absurd this (by decide)
  · intro ht
    refine ⟨σ.symm m, ?_, hk, hσ⟩
    by_contra hlt
    have := h5 (σ.symm m) (Nat.zero_le _) (not_le.mp hlt)
    rw [hσ, ht] at this
    exact absurd this (by decide)

/-! ## The repeated scan of `doReshrink` -/

theorem flipCoordinates_self (s : SvmProblem) (a : Nat) : s.flipCoordinates a a = s := by
  have e : ∀ k, swapIndex a a k = k := by
    intro k
    unfold swapIndex
    split_ifs with h <;> simp [h]
  unfold SvmProblem.flipCoordinates
  simp only [e]

/-- The test does not read the number of active variables. -/
theorem testShrinkVariable_active (s : SvmShrinkingProblem) (n k : Nat) (lu sd : ℚ) :
    SvmShrinkingProblem.testShrinkVariable
        { s with base := { s.base with m_active := n } } k lu sd
      = s.testShrinkVariable k lu sd := rfl

/-- A scan over slots that all fail the test changes nothing. -/
theorem scan_none (lu sd : ℚ) (a : Nat) :
    ∀ cur : SvmShrinkingProblem, (∀ k, k < a → cur.testShrinkVariable k lu sd = false) →
      forLoopDown a (SvmShrinkingProblem.shrinkBody lu sd) cur = cur := by
  induction a with
  | zero => exact fun cur _ => rfl
  | succ a ih =>
    intro cur h
    rw [forLoopDown_succ]
    have e : SvmShrinkingProblem.shrinkBody lu sd a cur = cur := by
      unfold SvmShrinkingProblem.shrinkBody
      rw [h a (Nat.lt_succ_self a)]
      rfl
    rw [e]
    exact ih cur (fun k hk => h k (Nat.lt_succ_of_lt hk))

/-- A scan over a state whose slots from `m` upward all pass the test and whose
slots below `m` all fail it only lowers the number of active variables to `m`:
every swap is a swap of the last active slot with itself. -/
theorem scan_sorted (lu sd : ℚ) (m d : Nat) :
    ∀ cur : SvmShrinkingProblem, cur.active = m + d →
      (∀ k, k < m → cur.testShrinkVariable k lu sd = false) →
      (∀ k, m ≤ k → k < m + d → cur.testShrinkVariable k lu sd = true) →
      forLoopDown (m + d) (SvmShrinkingProblem.shrinkBody lu sd) cur
        = { cur with base := { cur.base with m_active := m } } := by
  induction d with
  | zero =>
    intro cur hact h1 _
    rw [Nat.add_zero, scan_none lu sd m cur h1]
    have : cur.base.m_active = m := hact
    rw [← this]
  | succ d ih =>
    intro cur hact h1 h2
    have hact2 : cur.base.m_active = m + d + 1 := hact
    show forLoopDown (m + d + 1) (SvmShrinkingProblem.shrinkBody lu sd) cur = _
    rw [forLoopDown_succ]
    have e : SvmShrinkingProblem.shrinkBody lu sd (m + d) cur
        = { cur with base := { cur.base with m_active := m + d } } := by
      unfold SvmShrinkingProblem.shrinkBody
      rw [h2 (m + d) (Nat.le_add_right m d) (Nat.lt_succ_self _), if_pos rfl]
      unfold SvmShrinkingProblem.shrinkVariable
      rw [hact2, Nat.add_sub_cancel, flipCoordinates_self]
    have hi := ih { cur with base := { cur.base with m_active := m + d } } rfl
      (fun k hk => by rw [testShrinkVariable_active]; exact h1 k hk)
      (fun k hk1 hk2 => by
        rw [testShrinkVariable_active]; exact h2 k hk1 (Nat.lt_succ_of_lt hk2))
    rw [e, hi]

/-- The thresholds of a rearranged state over all `n` slots are those of the
state itself. -/
theorem IsKKTPair_rearranged (s t : SvmProblem) (σ : Equiv.Perm ℕ) (n : Nat) (lu sd : ℚ)
    (hr : s.Rearranged t σ) (hfix : ∀ k, n ≤ k → σ k = k) (h : s.IsKKTPair n lu sd) :
    t.IsKKTPair n lu sd := by
  obtain ⟨_, r1, r2, r3, r4, _⟩ := hr
  obtain ⟨h1, h2, h3, h4, h5, h6⟩ := h
  have hlt : ∀ k, k < n → σ k < n := perm_lt_of_fix σ n hfix
  have hinv : ∀ m, m < n → ∃ k, k < n ∧ σ k = m := by
    intro m hm
    refine ⟨σ.symm m, ?_, σ.apply_symm_apply m⟩
    refine perm_lt_of_fix σ.symm n (fun k hk => ?_) m hm
    rw [Equiv.symm_apply_eq, hfix k hk]
  refine ⟨fun a ha hu => ?_, fun a ha hd => ?_, h3, h4, ?_, ?_⟩
  · rw [r1, r4] at hu
    rw [r2]
    exact h1 _ (hlt a ha) hu
  · rw [r1, r3] at hd
    rw [r2]
    exact h2 _ (hlt a ha) hd
  · rcases h5 with h5 | ⟨m, hm, hmu, hmg⟩
    · exact Or.inl h5
    · obtain ⟨k, hk, hkm⟩ := hinv m hm
      refine Or.inr ⟨k, hk, ?_, ?_⟩
      · rw [r1, r4, hkm]; exact hmu
      · rw [r2, hkm]; exact hmg
  · rcases h6 with h6 | ⟨m, hm, hmd, hmg⟩
    · exact Or.inl h6
    · obtain ⟨k, hk, hkm⟩ := hinv m hm
      refine Or.inr ⟨k, hk, ?_, ?_⟩
      · rw [r1, r3, hkm]; exact hmd
      · rw [r2, hkm]; exact hmg

/-- After a scan of a fully active problem with its own thresholds, `reshrink()`
finds the same thresholds over all slots, deactivates the same slots again and
leaves the problem as the scan left it. -/
theorem reshrink_after_scan (s0 : SvmShrinkingProblem) (hfull : s0.active = s0.dimensions)
    (hlt : (s0.doShrink (s0.getMaxKKTViolations s0.active).1
      (s0.getMaxKKTViolations s0.active).2).active < s0.dimensions) :
    (s0.doShrink (s0.getMaxKKTViolations s0.active).1
        (s0.getMaxKKTViolations s0.active).2).reshrink.base
      = (s0.doShrink (s0.getMaxKKTViolations s0.active).1
        (s0.getMaxKKTViolations s0.active).2).base := by
  have hspec := getMaxKKTViolations_spec s0 s0.active
  obtain ⟨σ, hr, _, h2, _, h4, h5, h6, _, _⟩ :=
    doShrink_scan s0 (s0.getMaxKKTViolations s0.active).1 (s0.getMaxKKTViolations s0.active).2
  generalize (s0.getMaxKKTViolations s0.active).1 = lu at hspec hr h2 h4 h5 h6 hlt ⊢
  generalize (s0.getMaxKKTViolations s0.active).2 = sd at hspec hr h2 h4 h5 h6 hlt ⊢
  generalize s0.doShrink lu sd = s1 at hr h2 h4 h5 h6 hlt ⊢
  have hdim : s1.dimensions = s0.dimensions := hr.1
  have hdim2 : s1.base.m_problem.dimensions = s0.dimensions := hr.1
  have hne : ¬ s1.active = s1.dimensions := by
    rw [hdim]
    exact Nat.ne_of_lt hlt
  have hru : s0.base.Rearranged s1.unshrink.base σ := hr
  have hkkt : s1.unshrink.base.IsKKTPair s0.dimensions lu sd := by
    refine IsKKTPair_rearranged s0.base s1.unshrink.base σ s0.dimensions lu sd hru ?_ ?_
    · intro k hk
      exact h4 k (by rw [hfull]; exact hk)
    · rw [← hfull]
      exact hspec
  have huniq := IsKKTPair_unique s1.unshrink.base s0.dimensions _ _ lu sd
    (getMaxKKTViolations_spec s1.unshrink s0.dimensions) hkkt
  have htest : ∀ k, s1.unshrink.testShrinkVariable k lu sd = s0.testShrinkVariable (σ k) lu sd :=
    fun k => testShrinkVariable_rearranged s0 s1.unshrink σ hru k lu sd
  have hactu : s1.unshrink.active = s1.active + (s0.dimensions - s1.active) := by
    show s1.base.m_problem.dimensions = _
    rw [hdim2]
    have : s1.active ≤ s0.dimensions := le_of_lt hlt
    omega
  have hsorted := scan_sorted lu sd s1.active (s0.dimensions - s1.active) s1.unshrink hactu
    (fun k hk => by rw [htest]; exact h5 k (Nat.zero_le k) hk)
    (fun k hk1 hk2 => by
      rw [htest]
      refine h6 k hk1 ?_
      rw [hfull]
      have : s1.active ≤ s0.dimensions := le_of_lt hlt
      omega)
  unfold SvmShrinkingProblem.reshrink SvmShrinkingProblem.doReshrink
  rw [if_neg hne]
  dsimp only
  have hd : s1.unshrink.dimensions = s0.dimensions := hdim2
  rw [hd, huniq.1, huniq.2]
  unfold SvmShrinkingProblem.doShrink
  rw [hactu, hsorted]
  rfl

/-! ## The clamped step of the maximum gain scan -/

/-- The quotient by zero is not a number. -/
theorem divide_zero (x : ℚ) :
    divide x 0 = DoubleQuotient.posInf ∨ divide x 0 = DoubleQuotient.negInf
      ∨ divide x 0 = DoubleQuotient.nan := by
  unfold divide
  rw [if_pos rfl]
  split_ifs
  · exact Or.inl rfl
  · exact Or.inr (Or.inl rfl)
  · exact Or.inr (Or.inr rfl)

/-- The quotient by a nonzero number is the quotient of `ℚ`. -/
theorem divide_nonzero (x y : ℚ) (hy : y ≠ 0) : divide x y = DoubleQuotient.num (x / y) := by
  unfold divide
  rw [if_neg hy]

/-- The loop body of `selectMGVariable` in terms of `mgGain`: a candidate with
a zero denominator is passed over. -/
theorem mgBody_eq (p : SvmProblem) (i a : Nat) (st : MGLoop) :
    HMGSelectionCriterion.mgBody p i a st
      = if a = i then
          { bestIndex := st.bestIndex, bestGain := st.bestGain
            largestUp := if p.alpha a < p.boxMax a then max st.largestUp (p.gradient a)
              else st.largestUp
            smallestDown := if p.alpha a > p.boxMin a then min st.smallestDown (p.gradient a)
              else st.smallestDown }
        else
          { bestIndex :=
              if p.diagonal a + p.diagonal i - 2 * p.quadratic i a ≠ 0
                  ∧ HMGSelectionCriterion.mgGain p i a > st.bestGain then a
              else st.bestIndex
            bestGain :=
              if p.diagonal a + p.diagonal i - 2 * p.quadratic i a ≠ 0
                  ∧ HMGSelectionCriterion.mgGain p i a > st.bestGain then
                HMGSelectionCriterion.mgGain p i a
              else st.bestGain
            largestUp := if p.alpha a < p.boxMax a then max st.largestUp (p.gradient a)
              else st.largestUp
            smallestDown := if p.alpha a > p.boxMin a then min st.smallestDown (p.gradient a)
              else st.smallestDown } := by
  unfold HMGSelectionCriterion.mgBody HMGSelectionCriterion.mgGain HMGSelectionCriterion.mgStep
  dsimp only
  by_cases h0 : a = i
  · simp only [h0, if_true]
    split_ifs <;> rfl
  · simp only [h0, if_false]
    by_cases hd : p.diagonal a + p.diagonal i - 2 * p.quadratic i a = 0
    · have hn : ¬ (p.diagonal a + p.diagonal i - 2 * p.quadratic i a ≠ 0) := fun h => h hd
      rw [hd]
      rcases divide_zero (p.gradient a - p.gradient i) with e | e | e <;>
        · rw [e]
          simp only [ne_eq, not_true_eq_false, false_and, if_false]
          split_ifs <;> rfl
    · rw [divide_nonzero _ _ hd]
      simp only [ne_eq, hd, not_false_eq_true, true_and]
      split_ifs <;> rfl

/-- The clamped step keeps both variables in their boxes and lies between `0`
and the unclamped step; it is not `0` when the move is possible. -/
theorem mgStep_spec (p : SvmProblem) (i a : Nat)
    (ha : p.boxMin a ≤ p.alpha a ∧ p.alpha a ≤ p.boxMax a)
    (hi : p.boxMin i ≤ p.alpha i ∧ p.alpha i ≤ p.boxMax i) :
    (p.boxMin a ≤ p.alpha a + HMGSelectionCriterion.mgStep p i a
        ∧ p.alpha a + HMGSelectionCriterion.mgStep p i a ≤ p.boxMax a)
      ∧ (p.boxMin i ≤ p.alpha i - HMGSelectionCriterion.mgStep p i a
        ∧ p.alpha i - HMGSelectionCriterion.mgStep p i a ≤ p.boxMax i)
      ∧ (0 ≤ (p.gradient a - p.gradient i)
            / (p.diagonal a + p.diagonal i - 2 * p.quadratic i a) →
          0 ≤ HMGSelectionCriterion.mgStep p i a
            ∧ HMGSelectionCriterion.mgStep p i a ≤ (p.gradient a - p.gradient i)
              / (p.diagonal a + p.diagonal i - 2 * p.quadratic i a))
      ∧ ((p.gradient a - p.gradient i)
            / (p.diagonal a + p.diagonal i - 2 * p.quadratic i a) ≤ 0 →
          HMGSelectionCriterion.mgStep p i a ≤ 0
            ∧ (p.gradient a - p.gradient i)
              / (p.diagonal a + p.diagonal i - 2 * p.quadratic i a)
                ≤ HMGSelectionCriterion.mgStep p i a)
      ∧ (0 < (p.gradient a - p.gradient i)
            / (p.diagonal a + p.diagonal i - 2 * p.quadratic i a) →
          p.alpha a < p.boxMax a → p.boxMin i < p.alpha i →
          0 < HMGSelectionCriterion.mgStep p i a)
      ∧ ((p.gradient a - p.gradient i)
            / (p.diagonal a + p.diagonal i - 2 * p.quadratic i a) < 0 →
          p.boxMin a < p.alpha a → p.alpha i < p.boxMax i →
          HMGSelectionCriterion.mgStep p i a < 0) := by
  obtain ⟨ha1, ha2⟩ := ha
  obtain ⟨hi1, hi2⟩ := hi
  unfold HMGSelectionCriterion.mgStep
  dsimp only
  generalize (p.gradient a - p.gradient i)
    / (p.diagonal a + p.diagonal i - 2 * p.quadratic i a) = m
  refine ⟨⟨?_, ?_⟩, ⟨?_, ?_⟩, fun hm => ⟨?_, ?_⟩, fun hm => ⟨?_, ?_⟩, fun hm h1 h2 => ?_,
    fun hm h1 h2 => ?_⟩ <;> split_ifs <;> linarith

/-- What a nonzero return of the second order selection says about the pair:
`i` is below its upper bound, `j` above its lower bound with a smaller
gradient, the score of `j` is positive, and the returned value is at least
`gradient(i) - gradient(j)`. -/
theorem libsvm_nonzero (p : SvmProblem) (h : (LibSVMSelectionCriterion p).value ≠ 0) :
    p.alpha (LibSVMSelectionCriterion p).i < p.boxMax (LibSVMSelectionCriterion p).i
      ∧ p.alpha (LibSVMSelectionCriterion p).j > p.boxMin (LibSVMSelectionCriterion p).j
      ∧ p.gradient (LibSVMSelectionCriterion p).j < p.gradient (LibSVMSelectionCriterion p).i
      ∧ 0 < (p.gradient (LibSVMSelectionCriterion p).i - p.gradient (LibSVMSelectionCriterion p).j)
            * (p.gradient (LibSVMSelectionCriterion p).i
                - p.gradient (LibSVMSelectionCriterion p).j)
            / (p.diagonal (LibSVMSelectionCriterion p).i + p.diagonal (LibSVMSelectionCriterion p).j
                - 2 * p.quadratic (LibSVMSelectionCriterion p).i (LibSVMSelectionCriterion p).j)
      ∧ p.gradient (LibSVMSelectionCriterion p).i - p.gradient (LibSVMSelectionCriterion p).j
          ≤ (LibSVMSelectionCriterion p).value := by
  obtain ⟨_, _, u3⟩ := scan_spec (fun a => p.alpha a < p.boxMax a) p.gradient p.active
    (-sentinel) 0
  rw [← libsvmFirstBody_eq] at u3
  have e := libsvm_best p (forLoop p.active (libsvmFirstBody p) (-sentinel, 0)).2
    (forLoop p.active (libsvmFirstBody p) (-sentinel, 0)).1 p.active
    { smallestDown := sentinel, best := 0, j := 1 }
  have esd := libsvm_smallestDown p (forLoop p.active (libsvmFirstBody p) (-sentinel, 0)).2
    (forLoop p.active (libsvmFirstBody p) (-sentinel, 0)).1 p.active
    { smallestDown := sentinel, best := 0, j := 1 }
  have es := mvp_smallestDown p p.active
    { largestUp := -sentinel, smallestDown := sentinel, i := 0, j := 0 }
  have ed := mvp_down p p.active
    { largestUp := -sentinel, smallestDown := sentinel, i := 0, j := 0 }
  obtain ⟨_, d2, _⟩ := scan_spec (fun a => p.alpha a > p.boxMin a) (fun a => -p.gradient a)
    p.active (-sentinel) 0
  rw [← ed] at d2
  rw [← es] at esd
  obtain ⟨c1, _, c3⟩ := scan_spec
    (fun a => p.alpha a > p.boxMin a
      ∧ (forLoop p.active (libsvmFirstBody p) (-sentinel, 0)).1 - p.gradient a > 0
      ∧ p.diagonal (forLoop p.active (libsvmFirstBody p) (-sentinel, 0)).2 + p.diagonal a
          - 2 * p.quadratic (forLoop p.active (libsvmFirstBody p) (-sentinel, 0)).2 a ≠ 0)
    (fun a => ((forLoop p.active (libsvmFirstBody p) (-sentinel, 0)).1 - p.gradient a)
      * ((forLoop p.active (libsvmFirstBody p) (-sentinel, 0)).1 - p.gradient a)
      / (p.diagonal (forLoop p.active (libsvmFirstBody p) (-sentinel, 0)).2 + p.diagonal a
          - 2 * p.quadratic (forLoop p.active (libsvmFirstBody p) (-sentinel, 0)).2 a))
    p.active 0 1
  rw [← e] at c1 c3
  unfold LibSVMSelectionCriterion at h ⊢
  simp only at h c1 c3 esd d2 ⊢
  generalize (forLoop p.active (mvpBody p)
    { largestUp := -sentinel, smallestDown := sentinel, i := 0, j := 0 }).smallestDown = msd
    at esd d2
  generalize forLoop p.active (libsvmFirstBody p) (-sentinel, 0) = f at h u3 c1 c3 esd ⊢
  by_cases h1 : f.1 = -sentinel
  · rw [if_pos h1] at h
    exact absurd rfl h
  rw [if_neg h1] at h ⊢
  generalize forLoop p.active (libsvmSecondBody p f.2 f.1)
    { smallestDown := sentinel, best := 0, j := 1 } = r at h c1 c3 esd ⊢
  by_cases h2 : r.best = 0
  · rw [if_pos h2] at h
    exact absurd rfl h
  rw [if_neg h2]
  simp only
  rcases u3 with u3 | ⟨_, _, u5, u6, _⟩
  · rw [u3] at h1
    exact absurd rfl h1
  rcases c3 with c3 | ⟨c3a, c4, c5, c6, _⟩
  · exact absurd (congrArg Prod.fst c3) h2
  have hj : p.gradient r.j < p.gradient f.2 := by
    rw [u6]
    exact sub_pos.mp c5.2.1
  refine ⟨u5, c5.1, hj, ?_, ?_⟩
  · rw [u6, c6]
    exact c3a
  · rw [esd, u6]
    have := d2 r.j c4 c5.1
    linarith

/-! ## The maximum gain scan -/

/-- The pair `(largestUp, smallestDown)` of the loop of `selectMGVariable` is
the pair that `getMaxKKTViolations` computes, whatever the anchor. -/
theorem mg_kkt (p : SvmProblem) (i : Nat) (n : Nat) (st : MGLoop) :
    ((forLoop n (HMGSelectionCriterion.mgBody p i) st).largestUp,
        (forLoop n (HMGSelectionCriterion.mgBody p i) st).smallestDown)
      = forLoop n
          (SvmShrinkingProblem.kktBody { base := p, m_isUnshrinked := false, m_shrinkCounter := 0 })
          (st.largestUp, st.smallestDown) := by
  refine forLoop_map (fun st : MGLoop => (st.largestUp, st.smallestDown))
    (HMGSelectionCriterion.mgBody p i) _ ?_ n st
  intro a st
  rw [mgBody_eq]
  unfold SvmShrinkingProblem.kktBody SvmShrinkingProblem.alpha SvmShrinkingProblem.boxMax
    SvmShrinkingProblem.boxMin SvmShrinkingProblem.gradient
  dsimp only
  split_ifs <;> rfl

/-- The violation of `selectMGVariable` is the gap of the KKT thresholds of the
active set. -/
theorem selectMGVariable_violation (p : SvmProblem) (i : Nat) :
    ∃ lu sd, p.IsKKTPair p.active lu sd
      ∧ (HMGSelectionCriterion.selectMGVariable p i).violation = lu - sd := by
  have h := mg_kkt p i p.active
    { bestIndex := 0, bestGain := 0, largestUp := -sentinel, smallestDown := sentinel }
  have hs := getMaxKKTViolations_spec
    { base := p, m_isUnshrinked := false, m_shrinkCounter := 0 } p.active
  unfold SvmShrinkingProblem.getMaxKKTViolations at hs
  rw [← h] at hs
  exact ⟨_, _, hs, rfl⟩

namespace SvmProblem

theorem updateGradient_gradient (s : SvmProblem) (delta : Nat → ℚ) (a : Nat) :
    (s.updateGradient delta).gradient a
      = if a < s.active then s.gradient a - delta a else s.gradient a := by
  unfold updateGradient gradient
  exact forLoop_update_apply s.active (fun a x => x - delta a) s.m_gradient a

theorem applyStep_alpha (s : SvmProblem) (i j : Nat) (mu : ℚ) (b : Nat) :
    (s.applyStep i j mu).alpha b
      = if b = j then s.alpha j - mu else if b = i then s.alpha i + mu else s.alpha b := by
  simp only [applyStep, updateGradient, setAlpha, alpha, Function.update_apply]

theorem applyStep_gradient (s : SvmProblem) (i j : Nat) (mu : ℚ) (a : Nat) :
    (s.applyStep i j mu).gradient a
      = if a < s.active then s.gradient a - mu * (s.quadratic i a - s.quadratic j a)
        else s.gradient a := by
  unfold applyStep
  rw [updateGradient_gradient]
  rfl

/-- With a nonzero denominator `updateSMO` returns, and it moves along the pair
by the step `smoStep`. -/
theorem updateSMO_eq_applyStep (s : SvmProblem) (i j : Nat) (hij : i ≠ j)
    (hden : s.diagonal i + s.diagonal j - 2 * s.quadratic i j ≠ 0) :
    s.updateSMO i j = some (s.applyStep i j (s.smoStep i j)) := by
  have hji : j ≠ i := fun h => hij h.symm
  have hs1 : ∀ v, (s.setAlpha i v).alpha j = s.alpha j := by
    intro v
    simp [setAlpha, alpha, Function.update_noteq hji]
  unfold updateSMO smoStep applyStep
  simp only [hs1, divide_nonzero _ _ hden, DoubleQuotient.ge, decide_eq_true_eq]
  by_cases h1 : (s.gradient i - s.gradient j) / (s.diagonal i + s.diagonal j - 2 * s.quadratic i j)
      ≥ min (s.boxMax i - s.alpha i) (s.alpha j - s.boxMin j)
  · simp only [h1, if_true]
    by_cases h2 : s.boxMax i - s.alpha i > s.alpha j - s.boxMin j
    · have hm : min (s.boxMax i - s.alpha i) (s.alpha j - s.boxMin j) = s.alpha j - s.boxMin j :=
        min_eq_right (le_of_lt h2)
      simp only [h2, if_true, hm]
      have e2 : s.alpha j - (s.alpha j - s.boxMin j) = s.boxMin j := by ring
      rw [e2]
    · by_cases h3 : s.boxMax i - s.alpha i < s.alpha j - s.boxMin j
      · have hm : min (s.boxMax i - s.alpha i) (s.alpha j - s.boxMin j)
            = s.boxMax i - s.alpha i := min_eq_left (le_of_lt h3)
        simp only [h2, h3, if_true, if_false, hm]
        have e1 : s.alpha i + (s.boxMax i - s.alpha i) = s.boxMax i := by ring
        rw [e1]
      · have he : s.boxMax i - s.alpha i = s.alpha j - s.boxMin j :=
          le_antisymm (not_lt.mp h2) (not_lt.mp h3)
        have hm : min (s.boxMax i - s.alpha i) (s.alpha j - s.boxMin j)
            = s.boxMax i - s.alpha i := min_eq_left (le_of_eq he)
        simp only [h2, h3, if_false, hm]
        have e1 : s.alpha i + (s.boxMax i - s.alpha i) = s.boxMax i := by ring
        have e2 : s.alpha j - (s.boxMax i - s.alpha i) = s.boxMin j := by rw [he]; ring
        rw [e1, e2]
  · simp only [h1, if_false]

theorem applyStep_dimensions (s : SvmProblem) (i j : Nat) (mu : ℚ) :
    (s.applyStep i j mu).dimensions = s.dimensions := rfl

theorem applyStep_linear (s : SvmProblem) (i j : Nat) (mu : ℚ) (a : Nat) :
    (s.applyStep i j mu).linear a = s.linear a := rfl

theorem applyStep_boxMin (s : SvmProblem) (i j : Nat) (mu : ℚ) (a : Nat) :
    (s.applyStep i j mu).boxMin a = s.boxMin a := rfl

theorem applyStep_boxMax (s : SvmProblem) (i j : Nat) (mu : ℚ) (a : Nat) :
    (s.applyStep i j mu).boxMax a = s.boxMax a := rfl

/-- The new point as the old one plus `mu * (e_i - e_j)`. -/
theorem applyStep_alpha_shift (s : SvmProblem) (i j : Nat) (mu : ℚ) (hij : i ≠ j) (b : Nat) :
    (s.applyStep i j mu).alpha b
      = s.alpha b + mu * ((if b = i then 1 else 0) - (if b = j then 1 else 0)) := by
  rw [applyStep_alpha]
  by_cases h1 : b = j
  · subst h1
    have h2 : ¬ b = i := fun h => hij h.symm
    simp only [h2, if_true, if_false]
    ring
  · by_cases h2 : b = i
    · subst h2
      simp only [h1, if_true, if_false]
      ring
    · simp only [h1, h2, if_false]
      ring

/-- A weighted sum over the variables after a shift by `d * (e_i - e_j)`. -/
theorem sum_shift (n : Nat) (q α : Nat → ℚ) (i j : Nat) (d : ℚ) (hi : i < n) (hj : j < n) :
    ∑ b in Finset.range n, q b * (α b + d * ((if b = i then 1 else 0) - (if b = j then 1 else 0)))
      = ∑ b in Finset.range n, q b * α b + d * (q i - q j) := by
  have e : ∀ b, q b * (α b + d * ((if b = i then 1 else 0) - (if b = j then 1 else 0)))
      = q b * α b + (d * (if b = i then q b else 0) - d * (if b = j then q b else 0)) := by
    intro b
    split_ifs <;> ring
  simp only [e, Finset.sum_add_distrib, Finset.sum_sub_distrib, ← Finset.mul_sum,
    Finset.sum_ite_eq', Finset.mem_range, hi, hj, if_true]
  ring

theorem boundedUpdate_of_mem (v d lo hi : ℚ) (h1 : lo ≤ v + d) (h2 : v + d ≤ hi) :
    boundedUpdate v d lo hi = v + d := by
  unfold boundedUpdate
  simp only [not_lt.mpr h1, if_false, gt_iff_lt, not_lt.mpr h2]

/-- With all checks passed and `diff` nonzero, `modifyStep` writes both
variables and updates the gradient. -/
theorem modifyStep_eq (s : SvmProblem) (i j : Nat) (diff : ℚ) (hi : i < s.dimensions)
    (hd : diff ≠ 0)
    (hbi : s.boxMin i ≤ s.alpha i + diff ∧ s.alpha i + diff ≤ s.boxMax i)
    (hbj : s.boxMin j ≤ s.alpha j - diff ∧ s.alpha j - diff ≤ s.boxMax j) :
    s.modifyStep i j diff
      = some (((s.setAlpha i (boundedUpdate (s.alpha i) diff (s.boxMin i) (s.boxMax i))).setAlpha j
          (boundedUpdate
            ((s.setAlpha i (boundedUpdate (s.alpha i) diff (s.boxMin i) (s.boxMax i))).alpha j)
            (-diff) (s.boxMin j) (s.boxMax j))).updateGradient
          (fun a => diff * s.quadratic i a - diff * s.quadratic j a)) := by
  have hw : 0 ≤ (1 / 10 ^ 14 : ℚ) * (s.boxMax i - s.boxMin i) := by
    have : s.boxMin i ≤ s.boxMax i := le_trans hbi.1 hbi.2
    have h0 : (0 : ℚ) ≤ 1 / 10 ^ 14 := by norm_num
    exact mul_nonneg h0 (by linarith)
  have c1 : s.alpha i + diff ≥ s.boxMin i - (1 / 10 ^ 14 : ℚ) * (s.boxMax i - s.boxMin i) := by
    linarith [hbi.1]
  have c2 : s.alpha i + diff ≤ s.boxMax i + (1 / 10 ^ 14 : ℚ) * (s.boxMax i - s.boxMin i) := by
    linarith [hbi.2]
  have c3 : s.alpha j - diff ≥ s.boxMin j - (1 / 10 ^ 14 : ℚ) * (s.boxMax i - s.boxMin i) := by
    linarith [hbj.1]
  have c4 : s.alpha j - diff ≤ s.boxMax j + (1 / 10 ^ 14 : ℚ) * (s.boxMax i - s.boxMin i) := by
    linarith [hbj.2]
  unfold modifyStep
  simp only [hi, c1, c2, c3, c4, hd, not_true_eq_false, if_false]

/-- A feasible step between two different variables is `applyStep`. -/
theorem modifyStep_eq_applyStep (s : SvmProblem) (i j : Nat) (diff : ℚ) (hi : i < s.dimensions)
    (hij : i ≠ j) (hd : diff ≠ 0)
    (hbi : s.boxMin i ≤ s.alpha i + diff ∧ s.alpha i + diff ≤ s.boxMax i)
    (hbj : s.boxMin j ≤ s.alpha j - diff ∧ s.alpha j - diff ≤ s.boxMax j) :
    s.modifyStep i j diff = some (s.applyStep i j diff) := by
  have hji : j ≠ i := fun h => hij h.symm
  have hs1 : ∀ v, (s.setAlpha i v).alpha j = s.alpha j := by
    intro v
    simp [setAlpha, alpha, Function.update_noteq hji]
  rw [modifyStep_eq s i j diff hi hd hbi hbj, hs1,
    boundedUpdate_of_mem _ _ _ _ hbi.1 hbi.2,
    boundedUpdate_of_mem (s.alpha j) (-diff) _ _ (by linarith [hbj.1]) (by linarith [hbj.2])]
  unfold applyStep
  rw [← sub_eq_add_neg]
  congr 2
  funext a
  ring

/-- The objective value after a step `mu` along `e_i - e_j`. -/
theorem applyStep_functionValue (s : SvmProblem) (i j : Nat) (mu : ℚ)
    (hQ : s.Symmetric) (hact : s.active = s.dimensions) (hinv : s.GradientInvariant)
    (hi : i < s.dimensions) (hj : j < s.dimensions) (hij : i ≠ j) :
    (s.applyStep i j mu).functionValue
      = s.functionValue + mu * (s.gradient i - s.gradient j)
        - (1 / 2) * mu ^ 2 * (s.diagonal i + s.diagonal j - 2 * s.quadratic i j) := by
  have hg : ∀ a ∈ Finset.range s.dimensions,
      ((s.applyStep i j mu).gradient a + (s.applyStep i j mu).linear a)
          * (s.applyStep i j mu).alpha a
        = (s.gradient a + s.linear a - mu * (s.quadratic i a - s.quadratic j a))
          * (s.alpha a + mu * ((if a = i then 1 else 0) - (if a = j then 1 else 0))) := by
    intro a ha
    rw [applyStep_gradient, hact, if_pos (Finset.mem_range.mp ha), applyStep_linear,
      applyStep_alpha_shift s i j mu hij]
    ring
  have hsum : ∑ a in Finset.range s.dimensions,
      (s.gradient a + s.linear a - mu * (s.quadratic i a - s.quadratic j a)) * s.alpha a
      = ∑ a in Finset.range s.dimensions, (s.gradient a + s.linear a) * s.alpha a
        - mu * ((s.linear i - s.gradient i) - (s.linear j - s.gradient j)) := by
    have e : ∀ a, (s.gradient a + s.linear a - mu * (s.quadratic i a - s.quadratic j a))
        * s.alpha a = (s.gradient a + s.linear a) * s.alpha a
          - (mu * (s.quadratic i a * s.alpha a) - mu * (s.quadratic j a * s.alpha a)) := by
      intro a; ring
    simp only [e, Finset.sum_sub_distrib, ← Finset.mul_sum]
    rw [hinv i hi, hinv j hj]
    ring
  unfold functionValue
  rw [applyStep_dimensions, Finset.sum_congr rfl hg,
    sum_shift s.dimensions _ s.alpha i j mu hi hj, hsum]
  have hd : ∀ a, s.diagonal a = s.quadratic a a := fun _ => rfl
  rw [hd, hd, hQ j i hj hi]
  ring

theorem smoStep_le_newton (s : SvmProblem) (i j : Nat) :
    s.smoStep i j
      ≤ (s.gradient i - s.gradient j) / (s.diagonal i + s.diagonal j - 2 * s.quadratic i j) := by
  unfold smoStep
  simp only
  split_ifs with h
  · exact h
  · exact le_refl _

theorem smoStep_le_up (s : SvmProblem) (i j : Nat) : s.smoStep i j ≤ s.boxMax i - s.alpha i := by
  unfold smoStep
  simp only
  split_ifs with h
  · exact min_le_left _ _
  · exact le_trans (le_of_lt (not_le.mp h)) (min_le_left _ _)

theorem smoStep_le_down (s : SvmProblem) (i j : Nat) : s.smoStep i j ≤ s.alpha j - s.boxMin j := by
  unfold smoStep
  simp only
  split_ifs with h
  · exact min_le_right _ _
  · exact le_trans (le_of_lt (not_le.mp h)) (min_le_right _ _)

/-- The applied step is not negative when the Newton step and both distances
to the bounds are not negative. -/
theorem smoStep_nonneg (s : SvmProblem) (i j : Nat)
    (hmu : 0 ≤ (s.gradient i - s.gradient j)
      / (s.diagonal i + s.diagonal j - 2 * s.quadratic i j))
    (hu : 0 ≤ s.boxMax i - s.alpha i) (hl : 0 ≤ s.alpha j - s.boxMin j) :
    0 ≤ s.smoStep i j := by
  unfold smoStep
  simp only
  split_ifs with h
  · exact le_min hu hl
  · exact hmu

end SvmProblem

namespace SvmProblem

/-- A zero step that passes the first checks returns at once. -/
theorem modifyStep_zero (s : SvmProblem) (i j : Nat) (hi : i < s.dimensions)
    (hbi : s.boxMin i ≤ s.alpha i ∧ s.alpha i ≤ s.boxMax i) :
    s.modifyStep i j 0 = some s := by
  have hw : 0 ≤ (1 / 10 ^ 14 : ℚ) * (s.boxMax i - s.boxMin i) := by
    have h0 : (0 : ℚ) ≤ 1 / 10 ^ 14 := by norm_num
    exact mul_nonneg h0 (by linarith [hbi.1, hbi.2])
  have c1 : s.alpha i + 0
      ≥ s.boxMin i - (1 / 10 ^ 14 : ℚ) * (s.boxMax i - s.boxMin i) := by linarith [hbi.1]
  have c2 : s.alpha i + 0
      ≤ s.boxMax i + (1 / 10 ^ 14 : ℚ) * (s.boxMax i - s.boxMin i) := by linarith [hbi.2]
  unfold SvmProblem.modifyStep
  simp only [hi, c1, c2, not_true_eq_false, if_false, if_true]

/-- The objective value after a feasible `modifyStep(i, j, diff)`. -/
theorem modifyStep_functionValue (s : SvmProblem) (i j : Nat) (diff : ℚ)
    (hQ : s.Symmetric) (hact : s.active = s.dimensions) (hinv : s.GradientInvariant)
    (hi : i < s.dimensions) (hj : j < s.dimensions) (hij : i ≠ j)
    (hbi : s.boxMin i ≤ s.alpha i + diff ∧ s.alpha i + diff ≤ s.boxMax i)
    (hbj : s.boxMin j ≤ s.alpha j - diff ∧ s.alpha j - diff ≤ s.boxMax j) :
    ∃ t, s.modifyStep i j diff = some t
      ∧ t.functionValue = s.functionValue + diff * (s.gradient i - s.gradient j)
          - (1 / 2) * diff ^ 2 * (s.diagonal i + s.diagonal j - 2 * s.quadratic i j) := by
  by_cases hd : diff = 0
  · subst hd
    refine ⟨s, modifyStep_zero s i j hi ?_, by ring⟩
    exact ⟨by linarith [hbi.1], by linarith [hbi.2]⟩
  · exact ⟨_, modifyStep_eq_applyStep s i j diff hi hij hd hbi hbj,
      applyStep_functionValue s i j diff hQ hact hinv hi hj hij⟩

end SvmProblem

/-! ## Construction -/

/-- The gradient after the first `m` rows of the constructor loop. -/
theorem construct_rows (problem : Problem) (m a : Nat) :
    forLoop m
        (fun i g =>
          let v := problem.alpha i
          if v ≠ 0 then
            forLoop problem.dimensions
              (fun a g => Function.update g a (g a - problem.quadratic i a * v)) g
          else g)
        problem.linear a
      = if a < problem.dimensions then
          problem.linear a - ∑ i in Finset.range m, problem.quadratic i a * problem.alpha i
        else problem.linear a := by
  induction m with
  | zero => simp [forLoop_zero]
  | succ m ih =>
    rw [forLoop_succ]
    simp only
    by_cases hv : problem.alpha m = 0
    · rw [if_neg (not_not.mpr hv), ih, Finset.sum_range_succ, hv]
      simp
    · rw [if_pos hv,
        forLoop_update_apply problem.dimensions
          (fun a x => x - problem.quadratic m a * problem.alpha m), ih]
      by_cases ha : a < problem.dimensions
      · simp only [ha, if_true, Finset.sum_range_succ]
        ring
      · simp only [ha, if_false]

/-- The gradient after the first `m` rows when no row is skipped. -/
theorem allRows_rows (problem : Problem) (m a : Nat) :
    forLoop m
        (fun i g =>
          forLoop problem.dimensions
            (fun a g => Function.update g a (g a - problem.quadratic i a * problem.alpha i)) g)
        problem.linear a
      = if a < problem.dimensions then
          problem.linear a - ∑ i in Finset.range m, problem.quadratic i a * problem.alpha i
        else problem.linear a := by
  induction m with
  | zero => simp [forLoop_zero]
  | succ m ih =>
    rw [forLoop_succ,
      forLoop_update_apply problem.dimensions
        (fun a x => x - problem.quadratic m a * problem.alpha m), ih]
    by_cases ha : a < problem.dimensions
    · simp only [ha, if_true, Finset.sum_range_succ]
      ring
    · simp only [ha, if_false]

/-! ## Facts on the concrete states -/

theorem demoState_symmetric : demoState.Symmetric := by
  intro a b _ _
  simp only [SvmProblem.quadratic, demoState, demoProblem, eq_comm]

theorem demoState_gradientInvariant : demoState.GradientInvariant := by
  intro a ha
  have ha2 : a < 2 := ha
  interval_cases a <;>
    simp [SvmProblem.gradient, SvmProblem.linear, SvmProblem.quadratic, SvmProblem.alpha,
      SvmProblem.dimensions, demoState, demoProblem, Finset.sum_range_succ] <;> norm_num

theorem demoState_feasible : demoState.Feasible := by
  intro a ha
  have ha2 : a < 2 := ha
  interval_cases a <;>
    simp [SvmProblem.boxMin, SvmProblem.boxMax, SvmProblem.alpha, demoState, demoProblem] <;>
    norm_num

theorem cornerState_symmetric : cornerState.Symmetric := by
  intro a b _ _
  simp only [SvmProblem.quadratic, cornerState, eq_comm]

theorem cornerState_gradientInvariant : cornerState.GradientInvariant := by
  intro a ha
  have ha2 : a < 2 := ha
  interval_cases a <;>
    norm_num [SvmProblem.gradient, SvmProblem.linear, SvmProblem.quadratic, SvmProblem.alpha,
      SvmProblem.dimensions, cornerState, Finset.sum_range_succ]

theorem cornerState_feasible : cornerState.Feasible := by
  intro a ha
  have ha2 : a < 2 := ha
  interval_cases a <;>
    simp [SvmProblem.boxMin, SvmProblem.boxMax, SvmProblem.alpha, cornerState]

theorem demoState_denominator :
    demoState.diagonal 1 + demoState.diagonal 0 - 2 * demoState.quadratic 1 0 = 2 := by
  norm_num [SvmProblem.diagonal, Problem.diagonal, SvmProblem.quadratic, demoState, demoProblem]

/-! ## Claims on the gradient maintained problem -/

/-- C2 (as amended). Feasibility invariant of `updateSMO`: in a feasible state,
for distinct active indices `i`, `j` with positive denominator and
`gradient(i) ≥ gradient(j)`, `updateSMO(i, j)` returns a state in which every
variable is in its box. -/
theorem updateSMO_feasible (s : SvmProblem) (i j : Nat) (hfeas : s.Feasible)
    (hact : s.active ≤ s.dimensions) (hi : i < s.active) (hj : j < s.active) (hij : i ≠ j)
    (hden : 0 < s.diagonal i + s.diagonal j - 2 * s.quadratic i j)
    (hgrad : s.gradient j ≤ s.gradient i) :
    ∃ t, s.updateSMO i j = some t ∧ t.Feasible := by
  have hi2 : i < s.dimensions := lt_of_lt_of_le hi hact
  have hj2 : j < s.dimensions := lt_of_lt_of_le hj hact
  have hmu : 0 ≤ (s.gradient i - s.gradient j)
      / (s.diagonal i + s.diagonal j - 2 * s.quadratic i j) :=
    div_nonneg (by linarith) (le_of_lt hden)
  have h0 := SvmProblem.smoStep_nonneg s i j hmu (by linarith [(hfeas i hi2).2])
    (by linarith [(hfeas j hj2).1])
  have hu := SvmProblem.smoStep_le_up s i j
  have hl := SvmProblem.smoStep_le_down s i j
  refine ⟨_, SvmProblem.updateSMO_eq_applyStep s i j hij (ne_of_gt hden), ?_⟩
  intro a ha
  rw [SvmProblem.applyStep_dimensions] at ha
  rw [SvmProblem.applyStep_alpha, SvmProblem.applyStep_boxMin, SvmProblem.applyStep_boxMax]
  by_cases h1 : a = j
  · subst h1
    rw [if_pos rfl]
    exact ⟨by linarith, by linarith [(hfeas a ha).2]⟩
  · rw [if_neg h1]
    by_cases h2 : a = i
    · subst h2
      rw [if_pos rfl]
      exact ⟨by linarith [(hfeas a ha).1], by linarith⟩
    · rw [if_neg h2]
      exact hfeas a ha

/-- C3. Monotonic non-decrease: in a feasible state with the gradient
invariant (symmetric `Q`, all variables active), for `i ≠ j` with
`gradient(i) > gradient(j)`, `alpha(i) < boxMax(i)`, `alpha(j) > boxMin(j)` and
positive denominator, `updateSMO(i, j)` returns a state whose `functionValue()`
is at least `functionValue()` before the call. -/
theorem updateSMO_functionValue_mono (s : SvmProblem) (i j : Nat) (_hfeas : s.Feasible)
    (hQ : s.Symmetric) (hact : s.active = s.dimensions) (hinv : s.GradientInvariant)
    (hi : i < s.dimensions) (hj : j < s.dimensions) (hij : i ≠ j)
    (hgrad : s.gradient j < s.gradient i) (hup : s.alpha i < s.boxMax i)
    (hdown : s.boxMin j < s.alpha j)
    (hden : 0 < s.diagonal i + s.diagonal j - 2 * s.quadratic i j) :
    ∃ t, s.updateSMO i j = some t ∧ s.functionValue ≤ t.functionValue := by
  have hmu : 0 ≤ (s.gradient i - s.gradient j)
      / (s.diagonal i + s.diagonal j - 2 * s.quadratic i j) :=
    div_nonneg (by linarith) (le_of_lt hden)
  have h0 := SvmProblem.smoStep_nonneg s i j hmu (by linarith) (by linarith)
  have h1 := SvmProblem.smoStep_le_newton s i j
  refine ⟨_, SvmProblem.updateSMO_eq_applyStep s i j hij (ne_of_gt hden), ?_⟩
  rw [SvmProblem.applyStep_functionValue s i j _ hQ hact hinv hi hj hij]
  rw [le_div_iff₀ hden] at h1
  nlinarith [mul_nonneg h0 (sub_nonneg.mpr h1), mul_nonneg h0 (mul_nonneg h0 (le_of_lt hden))]

/-- C5. `functionValue()` is the objective at the current point: under the
gradient invariant, `0.5 * Σ_a (gradient(a) + linear(a)) * alpha(a)` equals
`linear · alpha - 0.5 * alpha^T Q alpha`. -/
theorem functionValue_eq_objective (s : SvmProblem) (hinv : s.GradientInvariant) :
    s.functionValue
      = ∑ a in Finset.range s.dimensions, s.linear a * s.alpha a
        - (1 / 2) * ∑ a in Finset.range s.dimensions, ∑ b in Finset.range s.dimensions,
            s.alpha a * s.quadratic a b * s.alpha b := by
  unfold SvmProblem.functionValue
  have e : ∀ a ∈ Finset.range s.dimensions, (s.gradient a + s.linear a) * s.alpha a
      = 2 * (s.linear a * s.alpha a)
        - ∑ b in Finset.range s.dimensions, s.alpha a * s.quadratic a b * s.alpha b := by
    intro a ha
    have hs : ∑ b in Finset.range s.dimensions, s.alpha a * s.quadratic a b * s.alpha b
        = s.alpha a * ∑ b in Finset.range s.dimensions, s.quadratic a b * s.alpha b := by
      rw [Finset.mul_sum]
      exact Finset.sum_congr rfl (fun b _ => by ring)
    rw [hinv a (Finset.mem_range.mp ha), hs]
    ring
  rw [Finset.sum_congr rfl e, Finset.sum_sub_distrib, ← Finset.mul_sum]
  ring

/-- C6. Construction establishes the gradient invariant for an arbitrary
initial alpha: for a problem with symmetric `Q`, the constructed `SvmProblem`
has `active() = dimensions()` and `gradient(a) = linear(a) - Σ_b Q(a,b) alpha(b)`
over all `b` for every variable `a`, and its gradient is the one obtained
without skipping the rows whose alpha is `0`. -/
theorem construct_gradientInvariant (problem : Problem)
    (hQ : ∀ a b, a < problem.dimensions → b < problem.dimensions →
      problem.quadratic a b = problem.quadratic b a) :
    (SvmProblem.construct problem).active = (SvmProblem.construct problem).dimensions
      ∧ (SvmProblem.construct problem).m_problem = problem
      ∧ (SvmProblem.construct problem).GradientInvariant
      ∧ ∀ a, (SvmProblem.construct problem).gradient a = SvmProblem.gradientAllRows problem a := by
  refine ⟨rfl, rfl, ?_, ?_⟩
  · intro a ha
    have ha2 : a < problem.dimensions := ha
    show forLoop problem.dimensions _ problem.linear a
      = problem.linear a
        - ∑ b in Finset.range problem.dimensions, problem.quadratic a b * problem.alpha b
    rw [construct_rows, if_pos ha2]
    congr 1
    exact Finset.sum_congr rfl (fun b hb => by rw [hQ b a (Finset.mem_range.mp hb) ha2])
  · intro a
    show forLoop problem.dimensions _ problem.linear a = SvmProblem.gradientAllRows problem a
    rw [construct_rows]
    unfold SvmProblem.gradientAllRows
    rw [allRows_rows]

/-! ## Claims on the selection criteria -/

/-- C7. Most violating pair: when all active gradients are strictly between
`-1e100` and `1e100`, some active variable is below its upper bound and some
active variable is above its lower bound, the selector returns as `i` the first
active index attaining the maximum gradient among the active variables below
their upper bound, as `j` the first active index attaining the minimum gradient
among the active variables above their lower bound, and as value
`gradient(i) - gradient(j)`. -/
theorem MVP_result (p : SvmProblem) (i0 j0 : Nat)
    (hg : ∀ a, a < p.active → -sentinel < p.gradient a ∧ p.gradient a < sentinel)
    (hup : ∃ a, a < p.active ∧ p.alpha a < p.boxMax a)
    (hdown : ∃ a, a < p.active ∧ p.alpha a > p.boxMin a) :
    p.IsFirstMaxUp (MVPSelectionCriterion p i0 j0).i
      ∧ p.IsFirstMinDown (MVPSelectionCriterion p i0 j0).j
      ∧ (MVPSelectionCriterion p i0 j0).value
          = p.gradient (MVPSelectionCriterion p i0 j0).i
            - p.gradient (MVPSelectionCriterion p i0 j0).j := by
  have eu := mvp_up p p.active
    { largestUp := -sentinel, smallestDown := sentinel, i := i0, j := j0 }
  have ed := mvp_down p p.active
    { largestUp := -sentinel, smallestDown := sentinel, i := i0, j := j0 }
  obtain ⟨_, u2, u3⟩ := scan_spec (fun a => p.alpha a < p.boxMax a) p.gradient p.active
    (-sentinel) i0
  obtain ⟨_, d2, d3⟩ := scan_spec (fun a => p.alpha a > p.boxMin a) (fun a => -p.gradient a)
    p.active (-sentinel) j0
  rw [← eu] at u2 u3
  rw [← ed] at d2 d3
  simp only [MVPSelectionCriterion]
  generalize forLoop p.active (mvpBody p)
    { largestUp := -sentinel, smallestDown := sentinel, i := i0, j := j0 } = r at u2 u3 d2 d3
  simp only at u2 u3 d2 d3
  obtain ⟨a, ha, hau⟩ := hup
  obtain ⟨b, hb, hbd⟩ := hdown
  have hu : -sentinel < r.largestUp := lt_of_lt_of_le (hg a ha).1 (u2 a ha hau)
  have hd : -sentinel < -r.smallestDown :=
    lt_of_lt_of_le (neg_lt_neg (hg b hb).2) (d2 b hb hbd)
  rcases u3 with u3 | ⟨_, u4, u5, u6, u7⟩
  · have := congrArg Prod.fst u3
    simp only at this
    rw [this] at hu
    exact absurd hu (lt_irrefl _)
  rcases d3 with d3 | ⟨_, d4, d5, d6, d7⟩
  · have := congrArg Prod.fst d3
    simp only at this
    rw [this] at hd
    exact absurd hd (lt_irrefl _)
  have d6b : p.gradient r.j = r.smallestDown := neg_inj.mp d6
  refine ⟨⟨u4, u5, fun a ha h => ?_, fun a ha h => ?_⟩,
    ⟨d4, d5, fun a ha h => ?_, fun a ha h => ?_⟩, ?_⟩
  · rw [u6]; exact u2 a ha h
  · rw [u6]; exact u7 a ha h
  · rw [d6b]; exact neg_le_neg_iff.mp (d2 a ha h)
  · rw [d6b]; exact neg_lt_neg_iff.mp (d7 a ha h)
  · rw [u6, d6b]

/-- C8. Second order selection returns violation `0` on every state that
satisfies the KKT conditions: if `gradient(a) ≤ gradient(b)` for all active
`a`, `b` with `alpha(a) < boxMax(a)` and `alpha(b) > boxMin(b)`, the selector
returns exactly `0`. -/
theorem LibSVM_zero_on_KKT (p : SvmProblem)
    (hkkt : ∀ a b, a < p.active → b < p.active → p.alpha a < p.boxMax a →
      p.alpha b > p.boxMin b → p.gradient a ≤ p.gradient b) :
    (LibSVMSelectionCriterion p).value = 0 := by
  unfold LibSVMSelectionCriterion
  simp only
  by_cases h1 : (forLoop p.active (libsvmFirstBody p) (-sentinel, 0)).1 = -sentinel
  · rw [if_pos h1]
  · rw [if_neg h1]
    have hbest : (forLoop p.active
        (libsvmSecondBody p (forLoop p.active (libsvmFirstBody p) (-sentinel, 0)).2
          (forLoop p.active (libsvmFirstBody p) (-sentinel, 0)).1)
        { smallestDown := sentinel, best := 0, j := 1 }).best = 0 := by
      have e := libsvm_best p (forLoop p.active (libsvmFirstBody p) (-sentinel, 0)).2
        (forLoop p.active (libsvmFirstBody p) (-sentinel, 0)).1 p.active
        { smallestDown := sentinel, best := 0, j := 1 }
      obtain ⟨_, _, c3⟩ := scan_spec
        (fun a => p.alpha a > p.boxMin a
          ∧ (forLoop p.active (libsvmFirstBody p) (-sentinel, 0)).1 - p.gradient a > 0
          ∧ p.diagonal (forLoop p.active (libsvmFirstBody p) (-sentinel, 0)).2 + p.diagonal a
              - 2 * p.quadratic (forLoop p.active (libsvmFirstBody p) (-sentinel, 0)).2 a ≠ 0)
        (fun a => ((forLoop p.active (libsvmFirstBody p) (-sentinel, 0)).1 - p.gradient a)
          * ((forLoop p.active (libsvmFirstBody p) (-sentinel, 0)).1 - p.gradient a)
          / (p.diagonal (forLoop p.active (libsvmFirstBody p) (-sentinel, 0)).2 + p.diagonal a
              - 2 * p.quadratic (forLoop p.active (libsvmFirstBody p) (-sentinel, 0)).2 a))
        p.active 0 1
      rw [← e] at c3
      obtain ⟨_, _, u3⟩ := scan_spec (fun a => p.alpha a < p.boxMax a) p.gradient p.active
        (-sentinel) 0
      rw [← libsvmFirstBody_eq] at u3
      generalize forLoop p.active (libsvmFirstBody p) (-sentinel, 0) = f at h1 c3 u3 ⊢
      rcases u3 with u3 | ⟨_, u4, u5, u6, _⟩
      · rw [u3] at h1
        exact absurd rfl h1
      · rcases c3 with c3 | ⟨_, c4, c5, _, _⟩
        · exact congrArg Prod.fst c3
        · simp only at c4 c5
          have := hkkt f.2 _ u4 c4 u5 c5.1
          rw [u6] at this
          linarith [c5.2.1]
    rw [if_pos hbest]

/-- C9. Second order choice: whenever the selector returns a nonzero value,
`i` is the index the most violating pair selection picks as its upper
candidate, `j` is the first active index maximizing
`(gradient(i) - gradient(a))^2 / (diagonal(i) + diagonal(a) - 2 Q(i,a))` over
the active `a` with `alpha(a) > boxMin(a)`, `gradient(a) < gradient(i)` and
nonzero quadratic coefficient, and the returned value is the value the most
violating pair selection returns on the same state. -/
theorem LibSVM_second_order (p : SvmProblem) (i0 j0 : Nat)
    (h : (LibSVMSelectionCriterion p).value ≠ 0) :
    (LibSVMSelectionCriterion p).i = (MVPSelectionCriterion p i0 j0).i
      ∧ p.IsFirstBestSecond (LibSVMSelectionCriterion p).i (LibSVMSelectionCriterion p).j
      ∧ (LibSVMSelectionCriterion p).value = (MVPSelectionCriterion p i0 j0).value := by
  have eu := mvp_up p p.active
    { largestUp := -sentinel, smallestDown := sentinel, i := i0, j := j0 }
  have es := mvp_smallestDown p p.active
    { largestUp := -sentinel, smallestDown := sentinel, i := i0, j := j0 }
  have hfst := scan_fst_indep (fun a => p.alpha a < p.boxMax a) p.gradient p.active
    (-sentinel) 0 i0
  have hsnd := scan_snd_indep (fun a => p.alpha a < p.boxMax a) p.gradient p.active
    (-sentinel) 0 i0
  obtain ⟨_, _, u3⟩ := scan_spec (fun a => p.alpha a < p.boxMax a) p.gradient p.active
    (-sentinel) 0
  rw [← eu] at hfst hsnd
  rw [← libsvmFirstBody_eq] at hfst hsnd u3
  simp only at hfst hsnd es
  have e := libsvm_best p (forLoop p.active (libsvmFirstBody p) (-sentinel, 0)).2
    (forLoop p.active (libsvmFirstBody p) (-sentinel, 0)).1 p.active
    { smallestDown := sentinel, best := 0, j := 1 }
  have esd := libsvm_smallestDown p (forLoop p.active (libsvmFirstBody p) (-sentinel, 0)).2
    (forLoop p.active (libsvmFirstBody p) (-sentinel, 0)).1 p.active
    { smallestDown := sentinel, best := 0, j := 1 }
  obtain ⟨_, c2, c3⟩ := scan_spec
    (fun a => p.alpha a > p.boxMin a
      ∧ (forLoop p.active (libsvmFirstBody p) (-sentinel, 0)).1 - p.gradient a > 0
      ∧ p.diagonal (forLoop p.active (libsvmFirstBody p) (-sentinel, 0)).2 + p.diagonal a
          - 2 * p.quadratic (forLoop p.active (libsvmFirstBody p) (-sentinel, 0)).2 a ≠ 0)
    (fun a => ((forLoop p.active (libsvmFirstBody p) (-sentinel, 0)).1 - p.gradient a)
      * ((forLoop p.active (libsvmFirstBody p) (-sentinel, 0)).1 - p.gradient a)
      / (p.diagonal (forLoop p.active (libsvmFirstBody p) (-sentinel, 0)).2 + p.diagonal a
          - 2 * p.quadratic (forLoop p.active (libsvmFirstBody p) (-sentinel, 0)).2 a))
    p.active 0 1
  rw [← e] at c2 c3
  rw [← es] at esd
  unfold LibSVMSelectionCriterion at h ⊢
  unfold MVPSelectionCriterion
  simp only at h c2 c3 esd ⊢
  generalize forLoop p.active (mvpBody p)
    { largestUp := -sentinel, smallestDown := sentinel, i := i0, j := j0 } = m
    at hfst hsnd esd ⊢
  generalize forLoop p.active (libsvmFirstBody p) (-sentinel, 0) = f
    at h hfst hsnd u3 c2 c3 esd ⊢
  by_cases h1 : f.1 = -sentinel
  · rw [if_pos h1] at h
    exact absurd rfl h
  rw [if_neg h1] at h ⊢
  generalize forLoop p.active (libsvmSecondBody p f.2 f.1)
    { smallestDown := sentinel, best := 0, j := 1 } = r at h c2 c3 esd ⊢
  by_cases h2 : r.best = 0
  · rw [if_pos h2] at h
    exact absurd rfl h
  rw [if_neg h2]
  simp only
  rcases u3 with u3 | ⟨_, _, _, u6, _⟩
  · rw [u3] at h1
    exact absurd rfl h1
  rcases c3 with c3 | ⟨_, c4, c5, c6, c7⟩
  · exact absurd (congrArg Prod.fst c3) h2
  have hscore : ∀ a, (f.1 - p.gradient a) * (f.1 - p.gradient a)
      / (p.diagonal f.2 + p.diagonal a - 2 * p.quadratic f.2 a)
      = p.secondOrderScore f.2 a := by
    intro a
    unfold SvmProblem.secondOrderScore
    rw [u6, pow_two]
  have hcand : ∀ a, p.IsSecondCandidate f.2 a →
      (p.alpha a > p.boxMin a ∧ f.1 - p.gradient a > 0
        ∧ p.diagonal f.2 + p.diagonal a - 2 * p.quadratic f.2 a ≠ 0) := by
    intro a ha
    refine ⟨ha.1, ?_, ha.2.2⟩
    rw [← u6]
    exact sub_pos.mpr ha.2.1
  refine ⟨hsnd h1, ⟨c4, ⟨c5.1, ?_, c5.2.2⟩, fun a ha hc => ?_, fun a ha hc => ?_⟩, ?_⟩
  · rw [u6]
    exact sub_pos.mp c5.2.1
  · rw [← hscore, ← hscore, c6]
    exact c2 a ha (hcand a hc)
  · rw [← hscore, ← hscore, c6]
    exact c7 a ha (hcand a hc)
  · rw [hfst, esd]

/-- C10 (as amended). Regime dispatch of the hybrid maximum gain selection: the
call delegates to the second order selection exactly when `smallProblem` is
set, `useLibSVM` is set or the previous pair is in a corner, and its selection
is then the one `LibSVMSelectionCriterion` returns; in every other state the
call runs the maximum gain regime. -/
theorem HMG_dispatch (c : HMGSelectionCriterion) (p : SvmProblem) (i j : Nat) :
    ((c.smallProblem = true ∨ c.useLibSVM = true ∨ c.isInCorner p = true) →
        c.select p i j = c.libSVMRegime p
          ∧ (c.select p i j).1 = LibSVMSelectionCriterion p)
      ∧ (¬ (c.smallProblem = true ∨ c.useLibSVM = true ∨ c.isInCorner p = true) →
        c.select p i j = c.maximumGainRegime p i j) := by
  have hc : (c.smallProblem || c.useLibSVM || c.isInCorner p) = true
      ↔ (c.smallProblem = true ∨ c.useLibSVM = true ∨ c.isInCorner p = true) := by
    simp only [Bool.or_eq_true, or_assoc]
  constructor
  · intro h
    have e : c.select p i j = c.libSVMRegime p := by
      unfold HMGSelectionCriterion.select
      rw [if_pos (hc.mpr h)]
    exact ⟨e, by rw [e]; rfl⟩
  · intro h
    unfold HMGSelectionCriterion.select
    rw [if_neg (fun h2 => h (hc.mp h2))]

set_option maxRecDepth 4000 in
theorem degenerateState_mvp (i0 j0 : Nat) :
    MVPSelectionCriterion degenerateState i0 j0 = { value := 2, i := 0, j := 1 } := by
  have e : degenerateState.active = 0 + 1 + 1 := rfl
  unfold MVPSelectionCriterion
  simp only [e, forLoop_succ, forLoop_zero]
  norm_num [mvpBody, SvmProblem.alpha, SvmProblem.gradient, SvmProblem.boxMax,
    SvmProblem.boxMin, degenerateState, sentinel]

set_option maxRecDepth 4000 in
theorem degenerateState_libsvm :
    LibSVMSelectionCriterion degenerateState = { value := 0, i := 0, j := 1 } := by
  have e : degenerateState.active = 0 + 1 + 1 := rfl
  unfold LibSVMSelectionCriterion
  simp only [e, forLoop_succ, forLoop_zero]
  norm_num [libsvmFirstBody, libsvmSecondBody, SvmProblem.alpha, SvmProblem.gradient,
    SvmProblem.boxMax, SvmProblem.boxMin, SvmProblem.diagonal, Problem.diagonal,
    SvmProblem.quadratic, degenerateState, sentinel]

theorem degenerateState_gradientInvariant : degenerateState.GradientInvariant := by
  intro a ha
  have ha2 : a < 2 := ha
  interval_cases a <;>
    norm_num [SvmProblem.gradient, SvmProblem.linear, SvmProblem.quadratic, SvmProblem.alpha,
      SvmProblem.dimensions, degenerateState, Finset.sum_range_succ]

theorem degenerateState_feasible : degenerateState.Feasible := by
  intro a _
  norm_num [SvmProblem.boxMin, SvmProblem.boxMax, SvmProblem.alpha, degenerateState]

/-- C15. The escape valve of the second order selection differs from the most
violating pair selection: there is a state, two active variables that form
the only violating pair and have `diagonal(0) + diagonal(1) - 2 Q(0,1) = 0`, on
which the most violating pair selection returns a strictly positive violation
and the second order selection returns exactly `0`. -/
theorem LibSVM_escape_valve :
    ∃ p : SvmProblem, p.active = 2 ∧ p.dimensions = 2 ∧ p.GradientInvariant ∧ p.Feasible
      ∧ p.diagonal 0 + p.diagonal 1 - 2 * p.quadratic 0 1 = 0
      ∧ (∀ i0 j0, 0 < (MVPSelectionCriterion p i0 j0).value)
      ∧ (LibSVMSelectionCriterion p).value = 0 := by
  refine ⟨degenerateState, rfl, rfl, degenerateState_gradientInvariant,
    degenerateState_feasible, ?_, fun i0 j0 => ?_, ?_⟩
  · norm_num [SvmProblem.diagonal, Problem.diagonal, SvmProblem.quadratic, degenerateState]
  · rw [degenerateState_mvp]
    norm_num
  · rw [degenerateState_libsvm]

/-- C18. The second order selection only hands out pairs that `updateSMO` can
strictly improve on: if the selector returns a nonzero value, the returned
pair has `i ≠ j`, `alpha(i) < boxMax(i)`, `alpha(j) > boxMin(j)`,
`gradient(i) > gradient(j)` and `diagonal(i) + diagonal(j) - 2 Q(i,j) > 0`, and
the returned value is strictly positive. -/
theorem LibSVM_pair_improvable (p : SvmProblem) (h : (LibSVMSelectionCriterion p).value ≠ 0) :
    (LibSVMSelectionCriterion p).i ≠ (LibSVMSelectionCriterion p).j
      ∧ p.alpha (LibSVMSelectionCriterion p).i < p.boxMax (LibSVMSelectionCriterion p).i
      ∧ p.alpha (LibSVMSelectionCriterion p).j > p.boxMin (LibSVMSelectionCriterion p).j
      ∧ p.gradient (LibSVMSelectionCriterion p).i > p.gradient (LibSVMSelectionCriterion p).j
      ∧ p.diagonal (LibSVMSelectionCriterion p).i + p.diagonal (LibSVMSelectionCriterion p).j
          - 2 * p.quadratic (LibSVMSelectionCriterion p).i (LibSVMSelectionCriterion p).j > 0
      ∧ (LibSVMSelectionCriterion p).value > 0 := by
  obtain ⟨h1, h2, h3, h4, h5⟩ := libsvm_nonzero p h
  refine ⟨fun hij => ?_, h1, h2, h3, ?_, by linarith⟩
  · rw [hij] at h3
    exact lt_irrefl _ h3
  · have hsq : 0 < (p.gradient (LibSVMSelectionCriterion p).i
        - p.gradient (LibSVMSelectionCriterion p).j)
        * (p.gradient (LibSVMSelectionCriterion p).i
          - p.gradient (LibSVMSelectionCriterion p).j) :=
      mul_pos (sub_pos.mpr h3) (sub_pos.mpr h3)
    rcases (div_pos_iff.mp h4) with ⟨_, hd⟩ | ⟨hn, _⟩
    · exact hd
    · exact absurd hsq (not_lt.mpr (le_of_lt hn))

/-! ## Claims on the hybrid maximum gain selection -/

/-- C12. `reset()` is idempotent, and the selection call after it returns
exactly what `LibSVMSelectionCriterion` returns on the problem and stores the
pair as `last_i`, `last_j`; the outcome does not depend on the members the
selector had before, nor on the incoming `i`, `j`. -/
theorem HMG_reset_idempotent (s : HMGSelectionCriterion) (p : SvmProblem) (i j : Nat) :
    s.reset.reset = s.reset
      ∧ s.reset.useLibSVM = true ∧ s.reset.smallProblem = false
      ∧ (s.reset.reset.select p i j) = (s.reset.select p i j)
      ∧ (s.reset.select p i j).1 = LibSVMSelectionCriterion p
      ∧ (s.reset.select p i j).2.last_i = (LibSVMSelectionCriterion p).i
      ∧ (s.reset.select p i j).2.last_j = (LibSVMSelectionCriterion p).j
      ∧ ∀ (t : HMGSelectionCriterion) (i2 j2 : Nat),
          t.reset.select p i2 j2 = s.reset.select p i j := by
  have e : ∀ (t : HMGSelectionCriterion) (i2 j2 : Nat), t.reset.select p i2 j2
      = (LibSVMSelectionCriterion p,
          { last_i := (LibSVMSelectionCriterion p).i, last_j := (LibSVMSelectionCriterion p).j,
            useLibSVM := false,
            smallProblem := decide (sqr p.active < p.m_problem.maxCacheSize) }) := by
    intro t i2 j2
    simp only [HMGSelectionCriterion.select, HMGSelectionCriterion.reset,
      HMGSelectionCriterion.libSVMRegime, Bool.false_or, Bool.true_or, if_true, Bool.not_false,
      Bool.true_and, Bool.if_true_left, Bool.or_false, Bool.decide_eq_true]
  have hr : s.reset.reset = s.reset := by
    simp only [HMGSelectionCriterion.reset]
  refine ⟨hr, ?_, ?_, ?_, ?_, ?_, ?_, fun t i2 j2 => ?_⟩
  · simp only [HMGSelectionCriterion.reset]
  · simp only [HMGSelectionCriterion.reset]
  · rw [hr]
  · rw [e]
  · rw [e]
  · rw [e]
  · rw [e, e]

/-- C17 (as amended). The maximum gain score is the objective gain of the
clamped step: in a feasible state with the gradient invariant, symmetric `Q`
and all variables active, for an anchor `b` and a candidate `a ≠ b` with
positive denominator, `modifyStep(a, b, mu)` with the clamped step `mu` of
`selectMGVariable` returns, the value `gain = mu * (2 * mu_max - mu) *
denominator` is twice the change of `functionValue()`, and it is not negative. -/
theorem mgGain_is_objective_gain (s : SvmProblem) (a b : Nat) (hfeas : s.Feasible)
    (hQ : s.Symmetric) (hact : s.active = s.dimensions) (hinv : s.GradientInvariant)
    (ha : a < s.dimensions) (hb : b < s.dimensions) (hab : a ≠ b)
    (hden : 0 < s.diagonal a + s.diagonal b - 2 * s.quadratic b a) :
    ∃ t, s.modifyStep a b (HMGSelectionCriterion.mgStep s b a) = some t
      ∧ HMGSelectionCriterion.mgGain s b a = 2 * (t.functionValue - s.functionValue)
      ∧ 0 ≤ HMGSelectionCriterion.mgGain s b a := by
  obtain ⟨f1, f2, f3, f4, _, _⟩ := mgStep_spec s b a (hfeas a ha) (hfeas b hb)
  obtain ⟨t, ht, hfv⟩ := SvmProblem.modifyStep_functionValue s a b
    (HMGSelectionCriterion.mgStep s b a) hQ hact hinv ha hb hab f1 f2
  have hsym : s.quadratic a b = s.quadratic b a := hQ a b ha hb
  have hmax : (s.gradient a - s.gradient b)
      / (s.diagonal a + s.diagonal b - 2 * s.quadratic b a)
      * (s.diagonal a + s.diagonal b - 2 * s.quadratic b a)
      = s.gradient a - s.gradient b := div_mul_cancel₀ _ (ne_of_gt hden)
  refine ⟨t, ht, ?_, ?_⟩
  · rw [hfv, hsym]
    unfold HMGSelectionCriterion.mgGain
    generalize HMGSelectionCriterion.mgStep s b a = mu at *
    generalize (s.gradient a - s.gradient b)
      / (s.diagonal a + s.diagonal b - 2 * s.quadratic b a) = m at *
    rw [← hmax]
    ring
  · unfold HMGSelectionCriterion.mgGain
    generalize HMGSelectionCriterion.mgStep s b a = mu at *
    generalize (s.gradient a - s.gradient b)
      / (s.diagonal a + s.diagonal b - 2 * s.quadratic b a) = m at *
    refine mul_nonneg ?_ (le_of_lt hden)
    rcases le_total 0 m with hm | hm
    · obtain ⟨h1, h2⟩ := f3 hm
      exact mul_nonneg h1 (by linarith)
    · obtain ⟨h1, h2⟩ := f4 hm
      exact mul_nonneg_of_nonpos_of_nonpos h1 (by linarith)

/-! ## Claims on shrinking -/

/-- C13. Soundness of the shrinking certificate: in a feasible state, with the
thresholds of `getMaxKKTViolations` over the active set, a variable `a` for
which `testShrinkVariable` is true forms no improving pair with any active
`b`, in either direction. -/
theorem shrink_certificate_sound (s : SvmShrinkingProblem) (a b : Nat)
    (_hfeas : s.base.Feasible) (_ha : a < s.active) (hb : b < s.active)
    (ht : s.testShrinkVariable a (s.getMaxKKTViolations s.active).1
      (s.getMaxKKTViolations s.active).2 = true) :
    ¬ (s.alpha a < s.boxMax a ∧ s.alpha b > s.boxMin b ∧ s.gradient a > s.gradient b)
      ∧ ¬ (s.alpha b < s.boxMax b ∧ s.alpha a > s.boxMin a ∧ s.gradient b > s.gradient a) := by
  obtain ⟨h1, h2, _⟩ := getMaxKKTViolations_spec s s.active
  rw [testShrinkVariable_iff] at ht
  unfold SvmShrinkingProblem.alpha SvmShrinkingProblem.boxMax SvmShrinkingProblem.boxMin
    SvmShrinkingProblem.gradient
  rcases ht with ⟨hg, hv⟩ | ⟨hg, hv⟩
  · constructor
    · rintro ⟨_, hbd, hlt⟩
      have := h2 b hb hbd
      linarith
    · rintro ⟨_, had, _⟩
      rw [hv] at had
      exact lt_irrefl _ had
  · constructor
    · rintro ⟨hau, _, _⟩
      rw [hv] at hau
      exact lt_irrefl _ hau
    · rintro ⟨hbu, _, hlt⟩
      have := h1 b hb hbu
      linarith

/-- C16. The backward deactivation scan is exact: with `shrinkVariable(a)` the
swap of slot `a` with slot `active - 1` and the decrement of `active`, for
every state and every pair of thresholds there is a permutation `σ` of the
slots, fixing the slots that were not active, such that after
`doShrink(largestUp, smallestDown)` slot `k` holds what slot `σ k` held before;
the slots that remain active hold exactly the previously active slots for which
`testShrinkVariable` is false, and the deactivated slots exactly those for
which it is true. -/
theorem doShrink_exact (s : SvmShrinkingProblem) (lu sd : ℚ) :
    ∃ σ : Equiv.Perm ℕ,
      s.base.Rearranged (s.doShrink lu sd).base σ
        ∧ (∀ k, s.active ≤ k → σ k = k)
        ∧ (s.doShrink lu sd).active ≤ s.active
        ∧ (∀ k, k < (s.doShrink lu sd).active →
            σ k < s.active ∧ s.testShrinkVariable (σ k) lu sd = false)
        ∧ (∀ k, (s.doShrink lu sd).active ≤ k → k < s.active →
            σ k < s.active ∧ s.testShrinkVariable (σ k) lu sd = true)
        ∧ (∀ m, m < s.active → s.testShrinkVariable m lu sd = false →
            ∃ k, k < (s.doShrink lu sd).active ∧ σ k = m)
        ∧ (∀ m, m < s.active → s.testShrinkVariable m lu sd = true →
            ∃ k, (s.doShrink lu sd).active ≤ k ∧ k < s.active ∧ σ k = m) := by
  obtain ⟨σ, h⟩ := doShrink_scan s lu sd
  have honto := scan_onto s (s.doShrink lu sd) lu sd σ h
  obtain ⟨hr, _, h2, _, h4, h5, h6, _, _⟩ := h
  refine ⟨σ, hr, h4, h2, fun k hk => ?_, fun k hk1 hk2 => ?_, fun m hm => (honto m hm).1,
    fun m hm => (honto m hm).2⟩
  · exact ⟨perm_lt_of_fix σ s.active h4 k (lt_of_lt_of_le hk h2), h5 k (Nat.zero_le k) hk⟩
  · exact ⟨perm_lt_of_fix σ s.active h4 k hk2, h6 k hk1 hk2⟩

/-- C14 (as amended). Shrink and reshrink: in a fully active state in which a
variable `a` has `alpha(a) = boxMax(a)` and `gradient(a) ≥ largestUp`, the
shrink scan deactivates `a`, and a `reshrink()` that follows with no update in
between repeats the scan with the same thresholds: the problem is left as the
scan left it, `a` stays deactivated and `active()` stays below `dimensions()`. -/
theorem reshrink_repeats_shrink (s0 : SvmShrinkingProblem) (a : Nat)
    (hfull : s0.active = s0.dimensions) (ha : a < s0.active)
    (hv : s0.alpha a = s0.boxMax a)
    (hg : s0.gradient a ≥ (s0.getMaxKKTViolations s0.active).1) :
    (s0.doShrink (s0.getMaxKKTViolations s0.active).1
        (s0.getMaxKKTViolations s0.active).2).active < s0.dimensions
      ∧ (∃ k, (s0.doShrink (s0.getMaxKKTViolations s0.active).1
              (s0.getMaxKKTViolations s0.active).2).active ≤ k
          ∧ k < s0.dimensions
          ∧ (s0.doShrink (s0.getMaxKKTViolations s0.active).1
              (s0.getMaxKKTViolations s0.active).2).base.m_problem.permutation k
            = s0.base.m_problem.permutation a)
      ∧ (s0.doShrink (s0.getMaxKKTViolations s0.active).1
            (s0.getMaxKKTViolations s0.active).2).reshrink.base
          = (s0.doShrink (s0.getMaxKKTViolations s0.active).1
            (s0.getMaxKKTViolations s0.active).2).base
      ∧ (s0.doShrink (s0.getMaxKKTViolations s0.active).1
            (s0.getMaxKKTViolations s0.active).2).reshrink.active
          < (s0.doShrink (s0.getMaxKKTViolations s0.active).1
            (s0.getMaxKKTViolations s0.active).2).reshrink.dimensions := by
  have ht : s0.testShrinkVariable a (s0.getMaxKKTViolations s0.active).1
      (s0.getMaxKKTViolations s0.active).2 = true :=
    (testShrinkVariable_iff s0 a _ _).mpr (Or.inr ⟨hg, hv⟩)
  obtain ⟨σ, hscan⟩ := doShrink_scan s0 (s0.getMaxKKTViolations s0.active).1
    (s0.getMaxKKTViolations s0.active).2
  obtain ⟨k, hk1, hk2, hk3⟩ := (scan_onto s0 _ _ _ σ hscan a ha).2 ht
  have hlt : (s0.doShrink (s0.getMaxKKTViolations s0.active).1
      (s0.getMaxKKTViolations s0.active).2).active < s0.dimensions := by
    rw [← hfull]
    exact lt_of_le_of_lt hk1 hk2
  have hbase := reshrink_after_scan s0 hfull hlt
  refine ⟨hlt, ⟨k, hk1, by rw [← hfull]; exact hk2, ?_⟩, hbase, ?_⟩
  · rw [hscan.1.2.2.2.2.2.2.1 k, hk3]
  · show (SvmShrinkingProblem.reshrink _).base.active < (SvmShrinkingProblem.reshrink _).base.dimensions
    rw [hbase]
    have hdim : (s0.doShrink (s0.getMaxKKTViolations s0.active).1
      (s0.getMaxKKTViolations s0.active).2).base.dimensions = s0.dimensions := hscan.1.1
    rw [hdim]
    exact hlt

/-- C20. Shrinking does not change the KKT gap: when `largestUp - smallestDown`
of `getMaxKKTViolations` over the active set is positive, after the scan
`doShrink(largestUp, smallestDown)` the call of `getMaxKKTViolations` over the
remaining active set returns the same `largestUp` and the same
`smallestDown`. -/
theorem shrink_keeps_thresholds (s : SvmShrinkingProblem)
    (hgap : (s.getMaxKKTViolations s.active).1 - (s.getMaxKKTViolations s.active).2 > 0) :
    (s.doShrink (s.getMaxKKTViolations s.active).1
        (s.getMaxKKTViolations s.active).2).getMaxKKTViolations
        (s.doShrink (s.getMaxKKTViolations s.active).1 (s.getMaxKKTViolations s.active).2).active
      = s.getMaxKKTViolations s.active := by
  suffices hcomp : ((s.doShrink (s.getMaxKKTViolations s.active).1
        (s.getMaxKKTViolations s.active).2).getMaxKKTViolations
        (s.doShrink (s.getMaxKKTViolations s.active).1
          (s.getMaxKKTViolations s.active).2).active).1
      = (s.getMaxKKTViolations s.active).1
      ∧ ((s.doShrink (s.getMaxKKTViolations s.active).1
        (s.getMaxKKTViolations s.active).2).getMaxKKTViolations
        (s.doShrink (s.getMaxKKTViolations s.active).1
          (s.getMaxKKTViolations s.active).2).active).2
      = (s.getMaxKKTViolations s.active).2 from Prod.ext hcomp.1 hcomp.2
  obtain ⟨k1, k2, k3, k4, k5, k6⟩ := getMaxKKTViolations_spec s s.active
  obtain ⟨σ, hscan⟩ := doShrink_scan s (s.getMaxKKTViolations s.active).1
    (s.getMaxKKTViolations s.active).2
  have honto := scan_onto s _ _ _ σ hscan
  obtain ⟨⟨_, r1, r2, r3, r4, _⟩, _, h2, _, h4, _, _, _, _⟩ := hscan
  generalize (s.getMaxKKTViolations s.active).1 = lu at *
  generalize (s.getMaxKKTViolations s.active).2 = sd at *
  generalize s.doShrink lu sd = t at *
  have hlt : ∀ k, k < t.active → σ k < s.active :=
    fun k hk => perm_lt_of_fix σ s.active h4 k (lt_of_lt_of_le hk h2)
  have hpair : t.base.IsKKTPair t.active lu sd := by
    refine ⟨fun k hk hu => ?_, fun k hk hd => ?_, k3, k4, ?_, ?_⟩
    · rw [r1, r4] at hu
      rw [r2]
      exact k1 _ (hlt k hk) hu
    · rw [r1, r3] at hd
      rw [r2]
      exact k2 _ (hlt k hk) hd
    · rcases k5 with k5 | ⟨m, hm, hmu, hmg⟩
      · exact Or.inl k5
      · have hkeep : s.testShrinkVariable m lu sd = false := by
          rw [Bool.eq_false_iff, Ne, testShrinkVariable_iff]
          rintro (⟨hg, _⟩ | ⟨_, hv⟩)
          · rw [hmg] at hg
            linarith
          · rw [hv] at hmu
            exact lt_irrefl _ hmu
        obtain ⟨k, hk, hkm⟩ := (honto m hm).1 hkeep
        refine Or.inr ⟨k, hk, ?_, ?_⟩
        · rw [r1, r4, hkm]; exact hmu
        · rw [r2, hkm]; exact hmg
    · rcases k6 with k6 | ⟨m, hm, hmd, hmg⟩
      · exact Or.inl k6
      · have hkeep : s.testShrinkVariable m lu sd = false := by
          rw [Bool.eq_false_iff, Ne, testShrinkVariable_iff]
          rintro (⟨_, hv⟩ | ⟨hg, _⟩)
          · rw [hv] at hmd
            exact lt_irrefl _ hmd
          · rw [hmg] at hg
            linarith
        obtain ⟨k, hk, hkm⟩ := (honto m hm).1 hkeep
        refine Or.inr ⟨k, hk, ?_, ?_⟩
        · rw [r1, r3, hkm]; exact hmd
        · rw [r2, hkm]; exact hmg
  exact IsKKTPair_unique t.base t.active _ _ lu sd (getMaxKKTViolations_spec t t.active) hpair

/-! ## Instances of the claims -/

/-- C2, the claim as stated fails: `cornerState` is feasible, `0 ≠ 1` are
active, the denominator is `2`, and `updateSMO(0, 1)` moves `alpha(0)` from `0`
to `-1`, below `boxMin(0) = 0`. -/
theorem updateSMO_feasible_counterexample :
    cornerState.Feasible ∧ cornerState.GradientInvariant
      ∧ 0 < cornerState.active ∧ 1 < cornerState.active
      ∧ 0 < cornerState.diagonal 0 + cornerState.diagonal 1 - 2 * cornerState.quadratic 0 1
      ∧ ∃ t, cornerState.updateSMO 0 1 = some t ∧ t.alpha 0 = -1 ∧ t.boxMin 0 = 0
          ∧ ¬ t.Feasible := by
  have hden : cornerState.diagonal 0 + cornerState.diagonal 1 - 2 * cornerState.quadratic 0 1
      = 2 := by
    norm_num [SvmProblem.diagonal, Problem.diagonal, SvmProblem.quadratic, cornerState]
  have h1 : (cornerState.applyStep 0 1 (cornerState.smoStep 0 1)).alpha 0 = -1 := by
    rw [SvmProblem.applyStep_alpha]
    simp [SvmProblem.smoStep, SvmProblem.gradient, SvmProblem.diagonal, Problem.diagonal,
      SvmProblem.quadratic, SvmProblem.boxMax, SvmProblem.boxMin, SvmProblem.alpha, cornerState]
    norm_num
  have h2 : (cornerState.applyStep 0 1 (cornerState.smoStep 0 1)).boxMin 0 = 0 := rfl
  refine ⟨cornerState_feasible, cornerState_gradientInvariant, by decide, by decide, ?_,
    _, SvmProblem.updateSMO_eq_applyStep cornerState 0 1 (by decide) ?_, h1, h2, ?_⟩
  · rw [hden]; norm_num
  · rw [hden]; norm_num
  · intro h
    have h3 := (h 0 (by decide)).1
    rw [h1, h2] at h3
    norm_num at h3

theorem updateSMO_feasible_witness : ∃ t, demoState.updateSMO 1 0 = some t ∧ t.Feasible :=
  updateSMO_feasible demoState 1 0 demoState_feasible (by decide) (by decide) (by decide)
    (by decide) (by rw [demoState_denominator]; norm_num)
    (by norm_num [SvmProblem.gradient, demoState])

theorem updateSMO_functionValue_mono_witness :
    ∃ t, demoState.updateSMO 1 0 = some t ∧ demoState.functionValue ≤ t.functionValue :=
  updateSMO_functionValue_mono demoState 1 0 demoState_feasible demoState_symmetric rfl
    demoState_gradientInvariant (by decide) (by decide) (by decide)
    (by norm_num [SvmProblem.gradient, demoState])
    (by norm_num [SvmProblem.boxMax, SvmProblem.alpha, demoState, demoProblem])
    (by norm_num [SvmProblem.boxMin, SvmProblem.alpha, demoState, demoProblem])
    (by rw [demoState_denominator]; norm_num)

theorem functionValue_eq_objective_witness :
    demoState.functionValue
      = ∑ a in Finset.range 2, demoState.linear a * demoState.alpha a
        - (1 / 2) * ∑ a in Finset.range 2, ∑ b in Finset.range 2,
            demoState.alpha a * demoState.quadratic a b * demoState.alpha b :=
  functionValue_eq_objective demoState demoState_gradientInvariant

theorem construct_gradientInvariant_witness :
    (SvmProblem.construct demoProblem).active = (SvmProblem.construct demoProblem).dimensions
      ∧ (SvmProblem.construct demoProblem).m_problem = demoProblem
      ∧ (SvmProblem.construct demoProblem).GradientInvariant
      ∧ ∀ a, (SvmProblem.construct demoProblem).gradient a
          = SvmProblem.gradientAllRows demoProblem a :=
  construct_gradientInvariant demoProblem (fun a b _ _ => by simp only [demoProblem, eq_comm])

theorem sentinel_ge : (10 : ℚ) ≤ sentinel := by
  unfold sentinel
  exact le_self_pow₀ (by norm_num) (by norm_num)

theorem mvpExample_eval (i0 j0 : Nat) :
    (MVPSelectionCriterion mvpExample i0 j0).i = 0
      ∧ (MVPSelectionCriterion mvpExample i0 j0).j = 1
      ∧ (MVPSelectionCriterion mvpExample i0 j0).value = 8 := by
  have e : mvpExample.active = 0 + 1 + 1 + 1 := rfl
  have h1 : (5:ℚ) > -sentinel := by linarith [sentinel_ge]
  have h2 : (5:ℚ) < sentinel := by linarith [sentinel_ge]
  have s0 : mvpBody mvpExample 0
      { largestUp := -sentinel, smallestDown := sentinel, i := i0, j := j0 }
      = { largestUp := 5, smallestDown := 5, i := 0, j := 0 } := by
    norm_num [mvpBody, SvmProblem.alpha, SvmProblem.gradient, SvmProblem.boxMax,
      SvmProblem.boxMin, mvpExample, h1, h2]
  have s1 : mvpBody mvpExample 1 { largestUp := 5, smallestDown := 5, i := 0, j := 0 }
      = { largestUp := 5, smallestDown := -3, i := 0, j := 1 } := by
    norm_num [mvpBody, SvmProblem.alpha, SvmProblem.gradient, SvmProblem.boxMax,
      SvmProblem.boxMin, mvpExample]
  have s2 : mvpBody mvpExample 2 { largestUp := 5, smallestDown := -3, i := 0, j := 1 }
      = { largestUp := 5, smallestDown := -3, i := 0, j := 1 } := by
    norm_num [mvpBody, SvmProblem.alpha, SvmProblem.gradient, SvmProblem.boxMax,
      SvmProblem.boxMin, mvpExample]
  simp only [MVPSelectionCriterion, e, forLoop_succ, forLoop_zero, Nat.zero_add, s0, s1, s2]
  norm_num

/-- C7, the instance of the spec: strictly interior alphas, bounds `[0, 1]` and
gradients `[5, -3, 2]` give `i = 0`, `j = 1` and violation `8`. -/
theorem MVP_result_witness :
    ((MVPSelectionCriterion mvpExample 2 2).i = 0
        ∧ (MVPSelectionCriterion mvpExample 2 2).j = 1
        ∧ (MVPSelectionCriterion mvpExample 2 2).value = 8)
      ∧ mvpExample.IsFirstMaxUp (MVPSelectionCriterion mvpExample 2 2).i
      ∧ mvpExample.IsFirstMinDown (MVPSelectionCriterion mvpExample 2 2).j
      ∧ (MVPSelectionCriterion mvpExample 2 2).value
          = mvpExample.gradient (MVPSelectionCriterion mvpExample 2 2).i
            - mvpExample.gradient (MVPSelectionCriterion mvpExample 2 2).j :=
  ⟨mvpExample_eval 2 2,
    MVP_result mvpExample 2 2
      (fun a ha => by
        have ha2 : a < 3 := ha
        interval_cases a <;> norm_num [SvmProblem.gradient, mvpExample, sentinel])
      ⟨0, by decide, by norm_num [SvmProblem.alpha, SvmProblem.boxMax, mvpExample]⟩
      ⟨0, by decide, by norm_num [SvmProblem.alpha, SvmProblem.boxMin, mvpExample]⟩⟩

theorem kktState_libsvm_hyp (a b : Nat) (ha : a < kktState.active) (hb : b < kktState.active)
    (hu : kktState.alpha a < kktState.boxMax a) (hd : kktState.alpha b > kktState.boxMin b) :
    kktState.gradient a ≤ kktState.gradient b := by
  have ha2 : a < 2 := ha
  have hb2 : b < 2 := hb
  interval_cases a <;> interval_cases b <;>
    norm_num [SvmProblem.alpha, SvmProblem.boxMax, SvmProblem.boxMin, SvmProblem.gradient,
      kktState] at hu hd ⊢

theorem LibSVM_zero_on_KKT_witness : (LibSVMSelectionCriterion kktState).value = 0 :=
  LibSVM_zero_on_KKT kktState kktState_libsvm_hyp

set_option maxRecDepth 4000 in
theorem demoState_libsvm :
    LibSVMSelectionCriterion demoState = { value := 1 / 6, i := 1, j := 0 } := by
  have e : demoState.active = 0 + 1 + 1 := rfl
  unfold LibSVMSelectionCriterion
  simp only [e, forLoop_succ, forLoop_zero]
  norm_num [libsvmFirstBody, libsvmSecondBody, SvmProblem.alpha, SvmProblem.gradient,
    SvmProblem.boxMax, SvmProblem.boxMin, SvmProblem.diagonal, Problem.diagonal,
    SvmProblem.quadratic, demoState, demoProblem, sentinel]

theorem LibSVM_second_order_witness :
    (LibSVMSelectionCriterion demoState).i = (MVPSelectionCriterion demoState 0 0).i
      ∧ demoState.IsFirstBestSecond (LibSVMSelectionCriterion demoState).i
          (LibSVMSelectionCriterion demoState).j
      ∧ (LibSVMSelectionCriterion demoState).value
          = (MVPSelectionCriterion demoState 0 0).value :=
  LibSVM_second_order demoState 0 0 (by rw [demoState_libsvm]; norm_num)

set_option maxRecDepth 4000 in
theorem hmgExample_libsvm :
    LibSVMSelectionCriterion hmgExample = { value := 10, i := 2, j := 3 } := by
  have e : hmgExample.active = 0 + 1 + 1 + 1 + 1 := rfl
  unfold LibSVMSelectionCriterion
  simp only [e, forLoop_succ, forLoop_zero]
  norm_num [libsvmFirstBody, libsvmSecondBody, SvmProblem.alpha, SvmProblem.gradient,
    SvmProblem.boxMax, SvmProblem.boxMin, SvmProblem.diagonal, Problem.diagonal,
    SvmProblem.quadratic, hmgExample, sentinel]

set_option maxRecDepth 4000 in
theorem hmgExample_mg0 :
    HMGSelectionCriterion.selectMGVariable hmgExample 0
      = { index := 2, violation := 10, gain := 4 } := by
  have e : hmgExample.active = 0 + 1 + 1 + 1 + 1 := rfl
  unfold HMGSelectionCriterion.selectMGVariable
  simp only [e, forLoop_succ, forLoop_zero]
  norm_num [HMGSelectionCriterion.mgBody, divide, SvmProblem.alpha, SvmProblem.gradient,
    SvmProblem.boxMax, SvmProblem.boxMin, SvmProblem.diagonal, Problem.diagonal,
    SvmProblem.quadratic, hmgExample, sentinel]

set_option maxRecDepth 4000 in
theorem hmgExample_mg1 :
    HMGSelectionCriterion.selectMGVariable hmgExample 1
      = { index := 2, violation := 10, gain := 4 } := by
  have e : hmgExample.active = 0 + 1 + 1 + 1 + 1 := rfl
  unfold HMGSelectionCriterion.selectMGVariable
  simp only [e, forLoop_succ, forLoop_zero]
  norm_num [HMGSelectionCriterion.mgBody, divide, SvmProblem.alpha, SvmProblem.gradient,
    SvmProblem.boxMax, SvmProblem.boxMin, SvmProblem.diagonal, Problem.diagonal,
    SvmProblem.quadratic, hmgExample, sentinel]

theorem smallSelector_not_corner : smallSelector.isInCorner hmgExample = false := by
  norm_num [HMGSelectionCriterion.isInCorner, smallSelector, SvmProblem.alpha,
    SvmProblem.boxMax, SvmProblem.boxMin, hmgExample]

theorem largeSelector_not_corner : largeSelector.isInCorner hmgExample = false := by
  norm_num [HMGSelectionCriterion.isInCorner, largeSelector, SvmProblem.alpha,
    SvmProblem.boxMax, SvmProblem.boxMin, hmgExample]

theorem hmgExample_maximumGain (i j : Nat) :
    (smallSelector.maximumGainRegime hmgExample i j).1 = { value := 10, i := 2, j := 0 } := by
  unfold HMGSelectionCriterion.maximumGainRegime
  simp only [smallSelector, hmgExample_mg0, hmgExample_mg1]
  norm_num [SvmProblem.gradient, hmgExample]

/-- C10, the claim as stated fails: with `smallProblem` set, `useLibSVM` cleared
and the last pair `(0, 1)` not in a corner, the call on `hmgExample` returns
the pair `(2, 3)` of the second order selection, not the pair `(2, 0)` of the
maximum gain regime. -/
theorem HMG_dispatch_counterexample :
    smallSelector.smallProblem = true ∧ smallSelector.useLibSVM = false
      ∧ smallSelector.isInCorner hmgExample = false
      ∧ (smallSelector.select hmgExample 0 1).1 = LibSVMSelectionCriterion hmgExample
      ∧ (smallSelector.select hmgExample 0 1).1 = { value := 10, i := 2, j := 3 }
      ∧ (smallSelector.maximumGainRegime hmgExample 0 1).1 = { value := 10, i := 2, j := 0 }
      ∧ smallSelector.select hmgExample 0 1 ≠ smallSelector.maximumGainRegime hmgExample 0 1 := by
  have e : (smallSelector.select hmgExample 0 1).1 = LibSVMSelectionCriterion hmgExample := rfl
  refine ⟨rfl, rfl, smallSelector_not_corner, e, by rw [e, hmgExample_libsvm],
    hmgExample_maximumGain 0 1, fun h => ?_⟩
  have h2 := congrArg (fun r : Selection × HMGSelectionCriterion => r.1.j) h
  simp only at h2
  rw [e, hmgExample_libsvm, hmgExample_maximumGain 0 1] at h2
  exact absurd h2 (by decide)

theorem HMG_dispatch_witness :
    (smallSelector.select hmgExample 0 1 = smallSelector.libSVMRegime hmgExample
        ∧ (smallSelector.select hmgExample 0 1).1 = LibSVMSelectionCriterion hmgExample)
      ∧ largeSelector.select hmgExample 0 1 = largeSelector.maximumGainRegime hmgExample 0 1 :=
  ⟨(HMG_dispatch smallSelector hmgExample 0 1).1 (Or.inl rfl),
    (HMG_dispatch largeSelector hmgExample 0 1).2 (fun h => by
      rcases h with h | h | h
      · exact absurd h (by decide)
      · exact absurd h (by decide)
      · rw [largeSelector_not_corner] at h
        exact absurd h (by decide))⟩

theorem shrink_certificate_sound_witness :
    ¬ (shrinkExample.alpha 0 < shrinkExample.boxMax 0 ∧ shrinkExample.alpha 1 > shrinkExample.boxMin 1
        ∧ shrinkExample.gradient 0 > shrinkExample.gradient 1)
      ∧ ¬ (shrinkExample.alpha 1 < shrinkExample.boxMax 1
        ∧ shrinkExample.alpha 0 > shrinkExample.boxMin 0
        ∧ shrinkExample.gradient 1 > shrinkExample.gradient 0) :=
  shrink_certificate_sound shrinkExample 0 1
    (fun a ha => by
      have ha2 : a < 2 := ha
      interval_cases a <;>
        norm_num [SvmProblem.boxMin, SvmProblem.boxMax, SvmProblem.alpha, shrinkExample])
    (by decide) (by decide)
    (by
      have e : shrinkExample.active = 0 + 1 + 1 := rfl
      rw [testShrinkVariable_iff]
      simp only [SvmShrinkingProblem.getMaxKKTViolations, e, forLoop_succ, forLoop_zero]
      norm_num [SvmShrinkingProblem.kktBody, SvmShrinkingProblem.alpha,
        SvmShrinkingProblem.gradient, SvmShrinkingProblem.boxMin, SvmShrinkingProblem.boxMax,
        SvmProblem.alpha, SvmProblem.gradient, SvmProblem.boxMin, SvmProblem.boxMax,
        shrinkExample, sentinel])


theorem shrinkExample_kkt :
    shrinkExample.getMaxKKTViolations shrinkExample.active = (0, 0) := by
  have e : shrinkExample.active = 0 + 1 + 1 := rfl
  simp only [SvmShrinkingProblem.getMaxKKTViolations, e, forLoop_succ, forLoop_zero]
  norm_num [SvmShrinkingProblem.kktBody, SvmShrinkingProblem.alpha,
    SvmShrinkingProblem.gradient, SvmShrinkingProblem.boxMin, SvmShrinkingProblem.boxMax,
    SvmProblem.alpha, SvmProblem.gradient, SvmProblem.boxMin, SvmProblem.boxMax,
    shrinkExample, sentinel]

theorem shrinkExample_doShrink :
    shrinkExample.doShrink 0 0 = shrinkExample.shrinkVariable 0 := by
  have e : shrinkExample.active = 0 + 1 + 1 := rfl
  have t1 : shrinkExample.testShrinkVariable 1 0 0 = false := by
    rw [Bool.eq_false_iff, Ne, testShrinkVariable_iff]
    norm_num [SvmProblem.alpha, SvmProblem.gradient, SvmProblem.boxMin, SvmProblem.boxMax,
      shrinkExample]
  have t0 : shrinkExample.testShrinkVariable 0 0 0 = true := by
    rw [testShrinkVariable_iff]
    norm_num [SvmProblem.alpha, SvmProblem.gradient, SvmProblem.boxMin, SvmProblem.boxMax,
      shrinkExample]
  unfold SvmShrinkingProblem.doShrink
  rw [e, forLoopDown_succ, forLoopDown_succ, forLoopDown_zero]
  have b1 : SvmShrinkingProblem.shrinkBody 0 0 (0 + 1) shrinkExample = shrinkExample := by
    unfold SvmShrinkingProblem.shrinkBody
    rw [t1]
    rfl
  rw [b1]
  unfold SvmShrinkingProblem.shrinkBody
  rw [t0]
  rfl

/-- C14, the claim as stated fails: in `shrinkExample` variable `0` has
`alpha = boxMax` and `gradient = 1 ≥ largestUp = 0`; the scan deactivates it
(`active()` goes from `2` to `1`, variable `0` moves to slot `1`), and the
`reshrink()` that follows leaves `active() = 1`, not `dimensions() = 2`, with
variable `0` still in the deactivated slot `1`. -/
theorem reshrink_counterexample :
    shrinkExample.active = shrinkExample.dimensions
      ∧ shrinkExample.alpha 0 = shrinkExample.boxMax 0
      ∧ shrinkExample.gradient 0 ≥ (shrinkExample.getMaxKKTViolations shrinkExample.active).1
      ∧ (shrinkExample.doShrink (shrinkExample.getMaxKKTViolations shrinkExample.active).1
          (shrinkExample.getMaxKKTViolations shrinkExample.active).2).active
        = shrinkExample.active - 1
      ∧ (shrinkExample.doShrink (shrinkExample.getMaxKKTViolations shrinkExample.active).1
          (shrinkExample.getMaxKKTViolations shrinkExample.active).2).reshrink.active = 1
      ∧ (shrinkExample.doShrink (shrinkExample.getMaxKKTViolations shrinkExample.active).1
          (shrinkExample.getMaxKKTViolations shrinkExample.active).2).reshrink.dimensions = 2
      ∧ (shrinkExample.doShrink (shrinkExample.getMaxKKTViolations shrinkExample.active).1
          (shrinkExample.getMaxKKTViolations shrinkExample.active).2).reshrink.base.m_problem.permutation
          1 = shrinkExample.base.m_problem.permutation 0 := by
  have hlt : (shrinkExample.doShrink (shrinkExample.getMaxKKTViolations shrinkExample.active).1
      (shrinkExample.getMaxKKTViolations shrinkExample.active).2).active
      < shrinkExample.dimensions := by
    rw [shrinkExample_kkt, shrinkExample_doShrink]
    decide
  have hbase := reshrink_after_scan shrinkExample rfl hlt
  have hs1 : (shrinkExample.doShrink (shrinkExample.getMaxKKTViolations shrinkExample.active).1
      (shrinkExample.getMaxKKTViolations shrinkExample.active).2).base
      = (shrinkExample.shrinkVariable 0).base := by
    rw [shrinkExample_kkt, shrinkExample_doShrink]
  refine ⟨rfl, ?_, ?_, ?_, ?_, ?_, ?_⟩
  · norm_num [SvmShrinkingProblem.alpha, SvmShrinkingProblem.boxMax, SvmProblem.alpha,
      SvmProblem.boxMax, shrinkExample]
  · rw [shrinkExample_kkt]
    norm_num [SvmShrinkingProblem.gradient, SvmProblem.gradient, shrinkExample]
  · show (SvmShrinkingProblem.doShrink _ _ _).base.m_active = _
    rw [hs1]
    rfl
  · show (SvmShrinkingProblem.reshrink _).base.m_active = _
    rw [hbase, hs1]
    rfl
  · show (SvmShrinkingProblem.reshrink _).base.m_problem.dimensions = _
    rw [hbase, hs1]
    rfl
  · rw [hbase, hs1]
    rfl

theorem reshrink_repeats_shrink_witness :
    (shrinkExample.doShrink (shrinkExample.getMaxKKTViolations shrinkExample.active).1
        (shrinkExample.getMaxKKTViolations shrinkExample.active).2).reshrink.base
      = (shrinkExample.doShrink (shrinkExample.getMaxKKTViolations shrinkExample.active).1
        (shrinkExample.getMaxKKTViolations shrinkExample.active).2).base :=
  (reshrink_repeats_shrink shrinkExample 0 rfl (by decide)
    (by norm_num [SvmShrinkingProblem.alpha, SvmShrinkingProblem.boxMax, SvmProblem.alpha,
      SvmProblem.boxMax, shrinkExample])
    (by
      rw [shrinkExample_kkt]
      norm_num [SvmShrinkingProblem.gradient, SvmProblem.gradient, shrinkExample])).2.2.1


theorem shrunkState_symmetric : shrunkState.Symmetric := by
  intro a b ha hb
  have ha2 : a < 3 := ha
  have hb2 : b < 3 := hb
  interval_cases a <;> interval_cases b <;> simp [SvmProblem.quadratic, shrunkState]

theorem shrunkState_gradientInvariant : shrunkState.GradientInvariant := by
  intro a ha
  have ha2 : a < 3 := ha
  interval_cases a <;>
    norm_num [SvmProblem.gradient, SvmProblem.linear, SvmProblem.quadratic, SvmProblem.alpha,
      SvmProblem.dimensions, shrunkState, Finset.sum_range_succ]

theorem shrunkState_feasible : shrunkState.Feasible := by
  intro a ha
  have ha2 : a < 3 := ha
  interval_cases a <;>
    norm_num [SvmProblem.boxMin, SvmProblem.boxMax, SvmProblem.alpha, shrunkState]

theorem shrunkState_mgStep : HMGSelectionCriterion.mgStep shrunkState 1 0 = 1 / 4 := by
  norm_num [HMGSelectionCriterion.mgStep, SvmProblem.alpha, SvmProblem.gradient,
    SvmProblem.boxMax, SvmProblem.boxMin, SvmProblem.diagonal, Problem.diagonal,
    SvmProblem.quadratic, shrunkState]

theorem shrunkState_mgGain : HMGSelectionCriterion.mgGain shrunkState 1 0 = 1 / 4 := by
  unfold HMGSelectionCriterion.mgGain
  rw [shrunkState_mgStep]
  norm_num [SvmProblem.gradient, SvmProblem.diagonal, Problem.diagonal, SvmProblem.quadratic,
    shrunkState]

theorem shrunkState_functionValue : shrunkState.functionValue = 9 / 2 := by
  norm_num [SvmProblem.functionValue, SvmProblem.gradient, SvmProblem.linear, SvmProblem.alpha,
    SvmProblem.dimensions, shrunkState, Finset.sum_range_succ]

theorem shrunkState_step_functionValue :
    (shrunkState.applyStep 0 1 (1 / 4)).functionValue = 19 / 4 := by
  unfold SvmProblem.functionValue
  rw [SvmProblem.applyStep_dimensions]
  have e : shrunkState.dimensions = 3 := rfl
  rw [e]
  simp only [Finset.sum_range_succ, Finset.sum_range_zero, SvmProblem.applyStep_gradient,
    SvmProblem.applyStep_alpha, SvmProblem.applyStep_linear]
  norm_num [SvmProblem.gradient, SvmProblem.linear, SvmProblem.alpha, SvmProblem.quadratic,
    SvmProblem.active, shrunkState]

/-- C17, the claim as stated fails: `shrunkState` is feasible, has symmetric `Q`
and the gradient invariant, but its third variable is deactivated. For the
anchor `1` and the candidate `0` the denominator is `4`, the clamped step is
`1/4` and the gain is `1/4`, while `modifyStep(0, 1, 1/4)` changes
`functionValue()` from `9/2` to `19/4`, twice the change being `1/2`. -/
theorem mgGain_counterexample :
    shrunkState.Feasible ∧ shrunkState.Symmetric ∧ shrunkState.GradientInvariant
      ∧ 0 < shrunkState.diagonal 0 + shrunkState.diagonal 1 - 2 * shrunkState.quadratic 1 0
      ∧ HMGSelectionCriterion.mgGain shrunkState 1 0 = 1 / 4
      ∧ ∃ t, shrunkState.modifyStep 0 1 (HMGSelectionCriterion.mgStep shrunkState 1 0) = some t
          ∧ 2 * (t.functionValue - shrunkState.functionValue) = 1 / 2
          ∧ HMGSelectionCriterion.mgGain shrunkState 1 0
              ≠ 2 * (t.functionValue - shrunkState.functionValue) := by
  refine ⟨shrunkState_feasible, shrunkState_symmetric, shrunkState_gradientInvariant, ?_,
    shrunkState_mgGain, shrunkState.applyStep 0 1 (1 / 4), ?_, ?_, ?_⟩
  · norm_num [SvmProblem.diagonal, Problem.diagonal, SvmProblem.quadratic, shrunkState]
  · rw [shrunkState_mgStep]
    exact SvmProblem.modifyStep_eq_applyStep shrunkState 0 1 (1 / 4) (by decide) (by decide)
      (by norm_num)
      (by norm_num [SvmProblem.boxMin, SvmProblem.boxMax, SvmProblem.alpha, shrunkState])
      (by norm_num [SvmProblem.boxMin, SvmProblem.boxMax, SvmProblem.alpha, shrunkState])
  · rw [shrunkState_step_functionValue, shrunkState_functionValue]
    norm_num
  · rw [shrunkState_step_functionValue, shrunkState_functionValue, shrunkState_mgGain]
    norm_num

theorem mgGain_is_objective_gain_witness :
    ∃ t, demoState.modifyStep 1 0 (HMGSelectionCriterion.mgStep demoState 0 1) = some t
      ∧ HMGSelectionCriterion.mgGain demoState 0 1 = 2 * (t.functionValue - demoState.functionValue)
      ∧ 0 ≤ HMGSelectionCriterion.mgGain demoState 0 1 :=
  mgGain_is_objective_gain demoState 1 0 demoState_feasible demoState_symmetric rfl
    demoState_gradientInvariant (by decide) (by decide) (by decide)
    (by norm_num [SvmProblem.diagonal, Problem.diagonal, SvmProblem.quadratic, demoState,
      demoProblem])


theorem LibSVM_pair_improvable_witness :
    (LibSVMSelectionCriterion demoState).i ≠ (LibSVMSelectionCriterion demoState).j
      ∧ demoState.alpha (LibSVMSelectionCriterion demoState).i
          < demoState.boxMax (LibSVMSelectionCriterion demoState).i
      ∧ demoState.alpha (LibSVMSelectionCriterion demoState).j
          > demoState.boxMin (LibSVMSelectionCriterion demoState).j
      ∧ demoState.gradient (LibSVMSelectionCriterion demoState).i
          > demoState.gradient (LibSVMSelectionCriterion demoState).j
      ∧ demoState.diagonal (LibSVMSelectionCriterion demoState).i
          + demoState.diagonal (LibSVMSelectionCriterion demoState).j
          - 2 * demoState.quadratic (LibSVMSelectionCriterion demoState).i
              (LibSVMSelectionCriterion demoState).j > 0
      ∧ (LibSVMSelectionCriterion demoState).value > 0 :=
  LibSVM_pair_improvable demoState (by rw [demoState_libsvm]; norm_num)


theorem gapExample_kkt : gapExample.getMaxKKTViolations gapExample.active = (1, 0) := by
  have e : gapExample.active = 0 + 1 + 1 + 1 := rfl
  simp only [SvmShrinkingProblem.getMaxKKTViolations, e, forLoop_succ, forLoop_zero]
  norm_num [SvmShrinkingProblem.kktBody, SvmShrinkingProblem.alpha,
    SvmShrinkingProblem.gradient, SvmShrinkingProblem.boxMin, SvmShrinkingProblem.boxMax,
    SvmProblem.alpha, SvmProblem.gradient, SvmProblem.boxMin, SvmProblem.boxMax,
    gapExample, sentinel]

theorem shrink_keeps_thresholds_witness :
    (gapExample.doShrink (gapExample.getMaxKKTViolations gapExample.active).1
        (gapExample.getMaxKKTViolations gapExample.active).2).getMaxKKTViolations
        (gapExample.doShrink (gapExample.getMaxKKTViolations gapExample.active).1
          (gapExample.getMaxKKTViolations gapExample.active).2).active
      = gapExample.getMaxKKTViolations gapExample.active :=
  shrink_keeps_thresholds gapExample (by rw [gapExample_kkt]; norm_num)


end Shark
